import Mathlib

/-! s9s, a terminal browser for S3 buckets: verification development

A shallow embedding of `internal/app/app.go`, `internal/aws/client.go` and
`internal/ui/views/*.go`, followed by theorems about the orchestrator
(`App.Update`, `App.View`), the profile source (`getAWSProfiles`) and
`App.GetObjectInfo`.

Conventions of the embedding

* Go strings are Lean strings: sequences of Unicode code points, i.e. the
  file contents and names that are valid UTF-8.  On those, Go's byte-wise
  string comparison is the comparison of the code point sequences, which is
  the order of `String` in Lean.
* A Go `error` is the text of its `Error()` method; `fmt.Errorf("p: %w", e)`
  is `"p: " ++ e`.
* What the program reaches outside itself (the operating system, the AWS SDK,
  the bubbles/lipgloss terminal libraries, the clock) is a field of `Host`,
  `Sdk` or `Tui`: a parameter of the embedding, about which nothing is assumed
  unless a theorem says so.
* Pointers that `New` always sets (`keyMap`, the three views, the status bar)
  are plain fields; the two that start out `nil` (`client`, `config`) are
  options, and dereferencing `nil` is the outcome `none` of a function whose
  result type is an `Option`.
-/

namespace S9s

/-! ## Go standard library: `strings`, `sort`, maps -/

/-- Go `unicode.IsSpace`: the code points with the White_Space property. -/
def unicode.IsSpace (c : Char) : Bool :=
  let n := c.toNat
  (9 ≤ n && n ≤ 13) || n == 32 || n == 133 || n == 160 || n == 5760 ||
    (8192 ≤ n && n ≤ 8202) || n == 8232 || n == 8233 || n == 8239 ||
    n == 8287 || n == 12288

/-- Go `strings.TrimSpace`: all leading and trailing white space removed. -/
def strings.TrimSpace (s : String) : String :=
  ⟨(s.data.dropWhile unicode.IsSpace).rdropWhile unicode.IsSpace⟩

/-- Go `strings.HasPrefix`. -/
def strings.HasPrefix (s pfx : String) : Bool :=
  pfx.data.isPrefixOf s.data

/-- Go `strings.HasSuffix`. -/
def strings.HasSuffix (s sfx : String) : Bool :=
  sfx.data.isSuffixOf s.data

/-- Go `strings.Trim`: all leading and trailing code points that occur in
`cutset` removed. -/
def strings.Trim (s cutset : String) : String :=
  ⟨(s.data.dropWhile (fun c => cutset.data.contains c)).rdropWhile
    (fun c => cutset.data.contains c)⟩

/-- Go `strings.TrimSuffix`: `s` without the trailing `sfx`, or `s` itself
when it does not end in `sfx`. -/
def strings.TrimSuffix (s sfx : String) : String :=
  if strings.HasSuffix s sfx then ⟨s.data.take (s.data.length - sfx.data.length)⟩ else s

/-- Go `strings.TrimPrefix`: `s` without the leading `pfx`, or `s` itself
when it does not start with `pfx`. -/
def strings.TrimPrefix (s pfx : String) : String :=
  if strings.HasPrefix s pfx then ⟨s.data.drop pfx.data.length⟩ else s

/-- Go `strings.Split(s, sep)` for a separator of one code point, the only
use the program makes of it (`"\n"`): the pieces between the separators, so
the empty string splits into one empty piece. -/
def strings.Split (s : String) (sep : Char) : List String :=
  (s.data.splitOn sep).map String.mk

/-- Go's `<=` on strings, decided on the code point sequences. -/
def stringLE (a b : String) : Bool :=
  decide (a.data ≤ b.data)

/-- Go `sort.Strings`: the slice in increasing order.  The order is total, so
the sorted slice does not depend on the algorithm; insertion sort stands for
it. -/
def sort.Strings (x : List String) : List String :=
  x.insertionSort (fun a b => stringLE a b = true)

/-- The key set of a Go `map[string]bool` all of whose stored values are
`true`, in order of first insertion. -/
abbrev StringSet := List String

/-- The Go assignment `m[k] = true`. -/
def StringSet.set (m : StringSet) (k : String) : StringSet :=
  if k ∈ m then m else m ++ [k]

/-! ## The host: operating system and Go runtime -/

/-- What `getAWSProfiles` asks of its surroundings. -/
structure Host where
  /-- Go `os.UserHomeDir()`. -/
  UserHomeDir : Except String String
  /-- Go `filepath.Join` of three elements. -/
  Join : String → String → String → String
  /-- Go `os.ReadFile`. -/
  ReadFile : String → Except String String
  /-- The order in which a `for k := range m` loop visits the keys of a map:
  unspecified by the language, a permutation of the keys (see
  `Host.RangeIsPerm`). -/
  rangeOrder : StringSet → List String

/-- The guarantee Go gives for `range` over a map: every key is visited
exactly once. -/
def Host.RangeIsPerm (h : Host) : Prop :=
  ∀ m : StringSet, (h.rangeOrder m).Perm m

/-! ## `internal/app/app.go`: the profile source -/

/-- The body of the loop over the lines of the credentials file
(app.go, lines 79-87). -/
def credentialsLine (profiles : StringSet) (line : String) : StringSet :=
  let line := strings.TrimSpace line
  if strings.HasPrefix line "[" && strings.HasSuffix line "]" then
    let profile := strings.Trim line "[]"
    if profile != "default" then profiles.set profile else profiles
  else profiles

/-- The body of the loop over the lines of the config file
(app.go, lines 94-105). -/
def configLine (profiles : StringSet) (line : String) : StringSet :=
  let line := strings.TrimSpace line
  if strings.HasPrefix line "[profile " && strings.HasSuffix line "]" then
    let profile := strings.TrimPrefix (strings.TrimSuffix line "]") "[profile "
    profiles.set profile
  else if strings.HasPrefix line "[" && strings.HasSuffix line "]"
      && !strings.HasPrefix line "[sso-session" then
    let profile := strings.Trim line "[]"
    if !strings.HasPrefix profile "profile " && profile != "default" then
      profiles.set profile
    else profiles
  else profiles

/-- The map `profiles` after both files have been read (app.go, lines 72-106):
a file that cannot be read is skipped. -/
def collectProfiles (h : Host) (home : String) : StringSet :=
  let credentialsFile := h.Join home ".aws" "credentials"
  let configFile := h.Join home ".aws" "config"
  let profiles : StringSet := StringSet.set [] "default"
  let profiles :=
    match h.ReadFile credentialsFile with
    | .ok credData => (strings.Split credData '\n').foldl credentialsLine profiles
    | .error _ => profiles
  match h.ReadFile configFile with
  | .ok configData => (strings.Split configData '\n').foldl configLine profiles
  | .error _ => profiles

/-- Go `getAWSProfiles` (app.go, lines 63-118). -/
def getAWSProfiles (h : Host) : Except String (List String) :=
  match h.UserHomeDir with
  | .error err => .error ("failed to get home directory: " ++ err)
  | .ok home =>
    let profiles := collectProfiles h home
    let result := h.rangeOrder profiles
    .ok (sort.Strings result)

/-- A host with home directory `/home/u` whose two AWS files have the given
contents (`none`: the file is absent) and whose maps are ranged over in
reverse insertion order. -/
def Host.ofFiles (cred config : Option String) : Host where
  UserHomeDir := .ok "/home/u"
  Join := fun a b c => a ++ "/" ++ b ++ "/" ++ c
  ReadFile := fun p =>
    if p = "/home/u/.aws/credentials" then
      match cred with
      | some d => .ok d
      | none => .error "open /home/u/.aws/credentials: no such file or directory"
    else if p = "/home/u/.aws/config" then
      match config with
      | some d => .ok d
      | none => .error "open /home/u/.aws/config: no such file or directory"
    else .error ("open " ++ p ++ ": no such file or directory")
  rangeOrder := List.reverse

/-- The key the loop body `credentialsLine` assigns for a line, if it assigns
one. -/
def credentialsAdds (line : String) : Option String :=
  let line := strings.TrimSpace line
  if strings.HasPrefix line "[" && strings.HasSuffix line "]" then
    let profile := strings.Trim line "[]"
    if profile != "default" then some profile else none
  else none

/-- The key the loop body `configLine` assigns for a line, if it assigns
one. -/
def configAdds (line : String) : Option String :=
  let line := strings.TrimSpace line
  if strings.HasPrefix line "[profile " && strings.HasSuffix line "]" then
    some (strings.TrimPrefix (strings.TrimSuffix line "]") "[profile ")
  else if strings.HasPrefix line "[" && strings.HasSuffix line "]"
      && !strings.HasPrefix line "[sso-session" then
    let profile := strings.Trim line "[]"
    if !strings.HasPrefix profile "profile " && profile != "default" then some profile
    else none
  else none

/-- The lines the loops of `getAWSProfiles` range over for a file (app.go,
lines 76-79 and 91-94): those of its contents, and none when it cannot be
read. -/
def Host.fileLines (h : Host) (path : String) : List String :=
  match h.ReadFile path with
  | .ok data => strings.Split data '\n'
  | .error _ => []

/-- A bracket character, `[` or `]`. -/
def isBracket (c : Char) : Bool :=
  c == '[' || c == ']'

/-- A name that neither begins nor ends with a bracket character. -/
def noBracketAtEnds (X : String) : Bool :=
  !(X.data.head?.any isBracket) && !(X.data.getLast?.any isBracket)

/-! ## Time, errors, effects -/

/-- Go `time.Time`: an instant, counted from the zero time `time.Time{}`. -/
abbrev Time := Nat

/-- A loaded SDK configuration (`aws.Config`), named by a number. -/
abbrev SdkConfig := Nat

/-- AWS SDK `types.Bucket`: both fields are pointers. -/
structure s3.Bucket where
  Name : Option String
  CreationDate : Option Time
deriving DecidableEq, Repr

/-- AWS SDK `types.Object`, the fields the client reads. -/
structure s3.Object where
  Key : Option String
  Size : Option Int
  LastModified : Option Time
  StorageClass : String
deriving DecidableEq, Repr

/-- AWS SDK `s3.HeadObjectOutput`, the fields the program reads. -/
structure s3.HeadObjectOutput where
  ContentLength : Option Int
  LastModified : Option Time
  StorageClass : String
deriving DecidableEq, Repr

/-- The AWS SDK, as far as `internal/aws/client.go` calls it. -/
structure Sdk where
  /-- SDK `config.LoadDefaultConfig` with the given shared profile and region. -/
  LoadDefaultConfig : String → String → Except String SdkConfig
  /-- SDK `cfg.Credentials.Retrieve`. -/
  Retrieve : SdkConfig → Except String Unit
  /-- SDK `s3.Client.ListBuckets`. -/
  ListBuckets : SdkConfig → Except String (List s3.Bucket)
  /-- SDK `s3.Client.ListObjectsV2` for a bucket, prefix and key limit. -/
  ListObjectsV2 : SdkConfig → String → String → Int → Except String (List s3.Object)
  /-- SDK `s3.Client.HeadObject` for a bucket and key. -/
  HeadObject : SdkConfig → String → String → Except String s3.HeadObjectOutput

/-- What a call leaves behind outside the program state: text printed on
standard output, and requests sent to the SDK. -/
inductive Effect where
  | print (text : String)
  | loadConfig (profile region : String)
  | retrieveCredentials (cfg : SdkConfig)
  | listBuckets (cfg : SdkConfig)
  | listObjects (cfg : SdkConfig) (bucket pfx : String) (maxKeys : Int)
  | headObject (cfg : SdkConfig) (bucket key : String)
deriving DecidableEq, Repr

/-- Whether the effect is a list-buckets request. -/
def Effect.isListBuckets : Effect → Bool
  | .listBuckets _ => true
  | _ => false

/-- Whether the effect is a list-objects request for the bucket and prefix. -/
def Effect.isListObjects (bucket pfx : String) : Effect → Bool
  | .listObjects _ b p _ => b == bucket && p == pfx
  | _ => false

/-! ## `internal/aws/client.go` -/

/-- Go `aws.ToString`: the empty string for `nil`. -/
def aws.ToString (p : Option String) : String := p.getD ""

/-- Go `aws.ToTime`: the zero time for `nil`. -/
def aws.ToTime (p : Option Time) : Time := p.getD 0

/-- Go `aws.ToInt64`: zero for `nil`. -/
def aws.ToInt64 (p : Option Int) : Int := p.getD 0

namespace awslocal

/-- Go `Client` (client.go, lines 15-17). -/
structure Client where
  s3Client : SdkConfig
deriving DecidableEq, Repr

/-- Go `BucketItem` (client.go, lines 19-22). -/
structure BucketItem where
  Name : String
  CreationDate : Time
deriving DecidableEq, Repr

/-- Go `ObjectItem` (client.go, lines 24-30). -/
structure ObjectItem where
  Key : String
  Size : Int
  LastModified : Time
  StorageClass : String
  IsDirectory : Bool
deriving DecidableEq, Repr

/-- Go `NewClient` (client.go, lines 33-55). -/
def NewClient (S : Sdk) (profile region : String) : Except String Client × List Effect :=
  let e1 := [Effect.print
    ("Creating AWS client for profile: " ++ profile ++ ", region: " ++ region ++ "\n"),
    Effect.loadConfig profile region]
  match S.LoadDefaultConfig profile region with
  | .error err => (.error ("unable to load SDK config: " ++ err), e1)
  | .ok cfg =>
    match S.Retrieve cfg with
    | .error err =>
      (.error ("unable to retrieve credentials: " ++ err), e1 ++ [Effect.retrieveCredentials cfg])
    | .ok _ =>
      (.ok { s3Client := cfg },
        e1 ++ [Effect.retrieveCredentials cfg,
          Effect.print ("Successfully loaded credentials for profile: " ++ profile ++ "\n")])

/-- Go `Client.ListBuckets` (client.go, lines 58-73). -/
def Client.ListBuckets (S : Sdk) (c : Client) : Except String (List BucketItem) × List Effect :=
  match S.ListBuckets c.s3Client with
  | .error err => (.error err, [Effect.listBuckets c.s3Client])
  | .ok result =>
    (.ok (result.map fun bucket =>
        { Name := aws.ToString bucket.Name, CreationDate := aws.ToTime bucket.CreationDate }),
      [Effect.listBuckets c.s3Client])

/-- Go `Client.ListObjects` (client.go, lines 76-100). -/
def Client.ListObjects (S : Sdk) (c : Client) (bucket pfx : String) (maxKeys : Int) :
    Except String (List ObjectItem) × List Effect :=
  match S.ListObjectsV2 c.s3Client bucket pfx maxKeys with
  | .error err => (.error err, [Effect.listObjects c.s3Client bucket pfx maxKeys])
  | .ok result =>
    (.ok (result.map fun obj =>
        { Key := aws.ToString obj.Key, Size := aws.ToInt64 obj.Size,
          LastModified := aws.ToTime obj.LastModified,
          StorageClass := obj.StorageClass, IsDirectory := false }),
      [Effect.listObjects c.s3Client bucket pfx maxKeys])

/-- Go `Client.HeadObject` (client.go, lines 116-121). -/
def Client.HeadObject (S : Sdk) (c : Client) (bucket key : String) :
    Except String s3.HeadObjectOutput × List Effect :=
  (S.HeadObject c.s3Client bucket key, [Effect.headObject c.s3Client bucket key])

end awslocal

/-- Go `config.Config` (internal/config/config.go, lines 9-12). -/
structure config.Config where
  Profile : String
  Region : String
deriving DecidableEq, Repr

/-! ## The terminal libraries: bubbletea, bubbles, lipgloss -/

/-- Go `tea.Msg`, the messages the program tells apart.  A key press is
identified by the text `KeyMsg.String()` gives for it. -/
inductive tea.Msg where
  | KeyMsg (s : String)
  | WindowSizeMsg (Width Height : Int)
  | ProfileSelectedMsg (Profile : String)
  | BucketSelectedMsg (Bucket : String)
  | other (tag : Nat)
deriving DecidableEq, Repr

/-- Go `tea.Cmd` other than `nil`: `tea.Quit`, a function returning a fixed
message, or a command made by the list component. -/
inductive tea.Cmd where
  | Quit
  | send (msg : tea.Msg)
  | component (tag : Nat)
deriving DecidableEq, Repr

/-- Go `key.Binding` of bubbles: the keys, the help text, the disabled flag. -/
structure key.Binding where
  keys : List String
  helpKey : String
  helpDesc : String
  disabled : Bool
deriving DecidableEq, Repr

/-- Go `key.NewBinding(key.WithKeys(...), key.WithHelp(k, d))`. -/
def key.NewBinding (keys : List String) (helpKey helpDesc : String) : key.Binding :=
  { keys := keys, helpKey := helpKey, helpDesc := helpDesc, disabled := false }

/-- Go `key.Matches` of bubbles for one binding: the key is one of the
binding's keys and the binding is enabled. -/
def key.Matches (k : String) (b : key.Binding) : Bool :=
  b.keys.any fun v => k == v && !b.disabled

/-- Go `help.Model` of bubbles. -/
structure help.Model where
  Width : Int
  ShowAll : Bool
  ShortSeparator : String
  FullSeparator : String
  Ellipsis : String
deriving DecidableEq, Repr

/-- Go `help.New()` of bubbles. -/
def help.New : help.Model :=
  { Width := 0, ShowAll := false, ShortSeparator := " • ", FullSeparator := "    ",
    Ellipsis := "…" }

/-- Go `lipgloss.Style`, the properties `styles.go` sets. -/
structure lipgloss.Style where
  bold : Bool
  foreground : Option String
  marginTop : Int
  marginRight : Int
  marginBottom : Int
  marginLeft : Int
deriving DecidableEq, Repr

/-- Go `lipgloss.NewStyle()`. -/
def lipgloss.NewStyle : lipgloss.Style :=
  { bold := false, foreground := none, marginTop := 0, marginRight := 0, marginBottom := 0,
    marginLeft := 0 }

/-- Go `Style.GetFrameSize` for a style without border or padding: the sum of
the horizontal and of the vertical margins. -/
def lipgloss.Style.GetFrameSize (s : lipgloss.Style) : Int × Int :=
  (s.marginLeft + s.marginRight, s.marginTop + s.marginBottom)

namespace views

/-- Go `ProfileItem` (profile_view.go, lines 10-12). -/
structure ProfileItem where
  profile : String
deriving DecidableEq, Repr

/-- Go `BucketItem` (bucket_view.go, lines 13-16). -/
structure BucketItem where
  name : String
  creationDate : Time
deriving DecidableEq, Repr

end views

/-- Go `list.Item` of bubbles: the two types of this program that implement
the interface. -/
inductive list.Item where
  | profile (i : views.ProfileItem)
  | bucket (i : views.BucketItem)
deriving DecidableEq, Repr

/-- Go `list.FilterState` of bubbles. -/
inductive list.FilterState where
  | Unfiltered
  | Filtering
  | FilterApplied
deriving DecidableEq, Repr

/-- Go `list.Model` of bubbles: the items, the settings the program makes, and
the selection and filter. -/
structure list.Model where
  items : List list.Item
  Title : String
  titleStyle : lipgloss.Style
  showHelp : Bool
  showStatusBar : Bool
  filteringEnabled : Bool
  width : Int
  height : Int
  cursor : Nat
  filterState : list.FilterState
  filterValue : String
deriving DecidableEq, Repr

/-- Go `list.Model.SetItems` of bubbles: the items are replaced by the given
ones. -/
def list.Model.SetItems (m : list.Model) (i : List list.Item) : list.Model :=
  { m with items := i }

/-- Go `list.Model.SetSize` of bubbles. -/
def list.Model.SetSize (m : list.Model) (width height : Int) : list.Model :=
  { m with width := width, height := height }

/-- The bubbles and lipgloss functions whose results the embedding leaves
open, and the formatting of times. -/
structure Tui where
  /-- Go `list.New(items, list.NewDefaultDelegate(), width, height)`. -/
  listNew : List list.Item → Int → Int → list.Model
  /-- Go `list.Model.Update`. -/
  listUpdate : list.Model → tea.Msg → list.Model × Option tea.Cmd
  /-- Go `list.Model.SelectedItem`; `none` is the `nil` item. -/
  listSelectedItem : list.Model → Option list.Item
  /-- Go `list.Model.View`. -/
  listView : list.Model → String
  /-- Go `lipgloss.Style.Render`. -/
  Render : lipgloss.Style → String → String
  /-- Go `time.Time.Format` with the given layout. -/
  Format : Time → String → String

/-! ## `internal/ui/views` -/

namespace views

/-- Go `appStyle` (styles.go, lines 6-7): `Margin(1, 2)`. -/
def appStyle : lipgloss.Style :=
  { lipgloss.NewStyle with marginTop := 1, marginRight := 2, marginBottom := 1, marginLeft := 2 }

/-- Go `titleStyle` (styles.go, lines 9-12). -/
def titleStyle : lipgloss.Style :=
  { lipgloss.NewStyle with bold := true, foreground := some "#00ff00", marginLeft := 2 }

/-- Go `dimmedStyle` (styles.go, lines 18-19). -/
def dimmedStyle : lipgloss.Style :=
  { lipgloss.NewStyle with foreground := some "#666666" }

/-- Go `Theme` (views.go, lines 10-17). -/
structure Theme where
  Primary : String
  Secondary : String
  Error : String
  Success : String
  Warning : String
  Info : String
deriving DecidableEq, Repr

/-- Go `DefaultTheme` (views.go, lines 20-29). -/
def DefaultTheme : Theme :=
  { Primary := "#00ff00", Secondary := "#666666", Error := "#ff0000", Success := "#00ff00",
    Warning := "#ffff00", Info := "#0000ff" }

/-- Go `BaseView` (views.go, lines 40-44). -/
structure BaseView where
  help : help.Model
  keys : List (String × key.Binding)
  theme : Theme
deriving DecidableEq, Repr

/-- Go `NewBaseView` (views.go, lines 47-53). -/
def NewBaseView (theme : Theme) : BaseView :=
  { help := help.New, keys := [], theme := theme }

/-- Go `ProfileView` (profile_view.go, lines 24-28). -/
structure ProfileView extends BaseView where
  list : list.Model
  profiles : List String
deriving DecidableEq, Repr

/-- Go `NewProfileView` (profile_view.go, lines 31-49). -/
def NewProfileView (T : Tui) (theme : Theme) (profiles : List String) : ProfileView :=
  let items := profiles.map fun p => list.Item.profile { profile := p }
  let l := T.listNew items 0 0
  let l := { l with Title := "Select AWS Profile" }
  let l := { l with showHelp := true }
  let l := { l with showStatusBar := false }
  let l := { l with filteringEnabled := true }
  let l := { l with titleStyle := titleStyle }
  { toBaseView := NewBaseView theme, list := l, profiles := profiles }

/-- Go `ProfileView.Update` (profile_view.go, lines 57-75). -/
def ProfileView.Update (T : Tui) (p : ProfileView) (msg : tea.Msg) :
    ProfileView × Option tea.Cmd :=
  let viaList (p : ProfileView) : ProfileView × Option tea.Cmd :=
    let r := T.listUpdate p.list msg
    ({ p with list := r.1 }, r.2)
  match msg with
  | .KeyMsg k =>
    if k == "enter" then
      match T.listSelectedItem p.list with
      | some (.profile i) => (p, some (.send (.ProfileSelectedMsg i.profile)))
      | _ => viaList p
    else viaList p
  | .WindowSizeMsg Width Height =>
    let (h, v) := appStyle.GetFrameSize
    viaList { p with list := p.list.SetSize (Width - h) (Height - v) }
  | _ => viaList p

/-- Go `ProfileView.View` (profile_view.go, lines 78-83). -/
def ProfileView.View (T : Tui) (p : ProfileView) : String :=
  "\n" ++ T.Render titleStyle "AWS Profile Selection" ++ "\n\n" ++
    T.Render dimmedStyle "Use ↑/↓ to navigate, Enter to select, ? for help" ++ "\n\n" ++
    T.listView p.list

/-- Go `BucketView` (bucket_view.go, lines 28-31). -/
structure BucketView extends BaseView where
  list : list.Model
deriving DecidableEq, Repr

/-- Go `NewBucketView` (bucket_view.go, lines 34-45). -/
def NewBucketView (T : Tui) (theme : Theme) : BucketView :=
  let l := T.listNew [] 0 0
  let l := { l with Title := "Select S3 Bucket" }
  let l := { l with showHelp := true }
  let l := { l with filteringEnabled := true }
  let l := { l with titleStyle := titleStyle }
  { toBaseView := NewBaseView theme, list := l }

/-- Go `BucketView.SetBuckets` (bucket_view.go, lines 48-57). -/
def BucketView.SetBuckets (b : BucketView) (buckets : List awslocal.BucketItem) : BucketView :=
  let items := buckets.map fun bucket =>
    list.Item.bucket { name := bucket.Name, creationDate := bucket.CreationDate }
  { b with list := b.list.SetItems items }

/-- Go `BucketView.Update` (bucket_view.go, lines 65-83). -/
def BucketView.Update (T : Tui) (b : BucketView) (msg : tea.Msg) :
    BucketView × Option tea.Cmd :=
  let viaList (b : BucketView) : BucketView × Option tea.Cmd :=
    let r := T.listUpdate b.list msg
    ({ b with list := r.1 }, r.2)
  match msg with
  | .KeyMsg k =>
    if k == "enter" then
      match T.listSelectedItem b.list with
      | some (.bucket i) => (b, some (.send (.BucketSelectedMsg i.name)))
      | _ => viaList b
    else viaList b
  | .WindowSizeMsg Width Height =>
    let (h, v) := appStyle.GetFrameSize
    viaList { b with list := b.list.SetSize (Width - h) (Height - v) }
  | _ => viaList b

/-- Go `BucketView.View` (bucket_view.go, lines 86-91). -/
def BucketView.View (T : Tui) (b : BucketView) : String :=
  "\n" ++ T.Render titleStyle "S3 Bucket Selection" ++ "\n\n" ++
    T.Render dimmedStyle "Use ↑/↓ to navigate, Enter to select, / to filter, ? for help" ++
    "\n\n" ++ T.listView b.list

/-- Go `ObjectView` (object_view.go, lines 9-12). -/
structure ObjectView extends BaseView where
  list : list.Model
deriving DecidableEq, Repr

/-- Go `NewObjectView` (object_view.go, lines 15-20). -/
def NewObjectView (T : Tui) (theme : Theme) : ObjectView :=
  { toBaseView := NewBaseView theme, list := T.listNew [] 0 0 }

/-- Go `ObjectView.Update` (object_view.go, lines 28-40). -/
def ObjectView.Update (T : Tui) (o : ObjectView) (msg : tea.Msg) :
    ObjectView × Option tea.Cmd :=
  let viaList (o : ObjectView) : ObjectView × Option tea.Cmd :=
    let r := T.listUpdate o.list msg
    ({ o with list := r.1 }, r.2)
  match msg with
  | .KeyMsg k =>
    if k == "q" || k == "ctrl+c" then (o, some .Quit) else viaList o
  | _ => viaList o

/-- Go `ObjectView.View` (object_view.go, lines 43-45). -/
def ObjectView.View (T : Tui) (o : ObjectView) : String :=
  "\n  " ++ T.listView o.list

/-- Go `StatusBar` (status_bar.go, lines 11-15). -/
structure StatusBar extends BaseView where
  message : String
  time : Time
deriving DecidableEq, Repr

/-- Go `NewStatusBar` (status_bar.go, lines 18-23), at clock reading `now`. -/
def NewStatusBar (theme : Theme) (now : Time) : StatusBar :=
  { toBaseView := NewBaseView theme, message := "", time := now }

/-- Go `StatusBar.Update` (status_bar.go, lines 31-41). -/
def StatusBar.Update (s : StatusBar) (msg : tea.Msg) : StatusBar × Option tea.Cmd :=
  match msg with
  | .KeyMsg k => if k == "q" || k == "ctrl+c" then (s, some .Quit) else (s, none)
  | _ => (s, none)

/-- Go `StatusBar.View` (status_bar.go, lines 44-46). -/
def StatusBar.View (T : Tui) (s : StatusBar) : String :=
  "\n  " ++ s.message ++ " | " ++ T.Format s.time "15:04:05"

/-- Go `StatusBar.SetMessage` (status_bar.go, lines 49-52), at clock reading
`now`. -/
def StatusBar.SetMessage (s : StatusBar) (now : Time) (msg : String) : StatusBar :=
  { s with message := msg, time := now }

end views

/-! ## `internal/app/app.go`: the orchestrator -/

/-- Go `KeyMap` (app.go, lines 34-39). -/
structure KeyMap where
  Quit : key.Binding
  Help : key.Binding
  Back : key.Binding
  Refresh : key.Binding
deriving DecidableEq, Repr

/-- Go `DefaultKeyMap` (app.go, lines 42-61). -/
def DefaultKeyMap : KeyMap :=
  { Quit := key.NewBinding ["q", "ctrl+c"] "q/ctrl+c" "quit"
    Help := key.NewBinding ["?"] "?" "help"
    Back := key.NewBinding ["esc"] "esc" "back"
    Refresh := key.NewBinding ["r"] "r" "refresh" }

/-- Go `App` (app.go, lines 21-31). -/
structure App where
  client : Option awslocal.Client
  config : Option config.Config
  help : help.Model
  keyMap : KeyMap
  activeView : String
  profileView : views.ProfileView
  bucketView : views.BucketView
  objectView : views.ObjectView
  statusBar : views.StatusBar
deriving DecidableEq, Repr

/-- Go `New` (app.go, lines 121-137), at clock reading `now`. -/
def New (H : Host) (T : Tui) (now : Time) : Except String App :=
  match getAWSProfiles H with
  | .error err => .error ("failed to get AWS profiles: " ++ err)
  | .ok profiles =>
    let theme := views.DefaultTheme
    .ok { client := none, config := none, help := help.New, keyMap := DefaultKeyMap,
          activeView := "profile", profileView := views.NewProfileView T theme profiles,
          bucketView := views.NewBucketView T theme, objectView := views.NewObjectView T theme,
          statusBar := views.NewStatusBar theme now }

/-- Go `App.ListBuckets` (app.go, lines 223-225); `none` when `a.client` is
`nil`. -/
def App.ListBuckets (S : Sdk) (a : App) :
    Option (Except String (List awslocal.BucketItem) × List Effect) :=
  a.client.map fun c => c.ListBuckets S

/-- Go `App.ListObjects` (app.go, lines 228-230); `none` when `a.client` is
`nil`. -/
def App.ListObjects (S : Sdk) (a : App) (bucket pfx : String) :
    Option (Except String (List awslocal.ObjectItem) × List Effect) :=
  a.client.map fun c => c.ListObjects S bucket pfx 100

/-- Go `App.GetObjectInfo` (app.go, lines 249-266); `none` when `a.client` is
`nil`. -/
def App.GetObjectInfo (S : Sdk) (a : App) (bucket key : String) :
    Option (Except String awslocal.ObjectItem × List Effect) :=
  match a.client with
  | none => none
  | some c =>
    match c.HeadObject S bucket key with
    | (.error err, eff) => some (.error ("failed to get object info: " ++ err), eff)
    | (.ok head, eff) =>
      match head.ContentLength, head.LastModified with
      | some size, some lastModified =>
        some (.ok { Key := key, Size := size, LastModified := lastModified,
                    StorageClass := head.StorageClass, IsDirectory := false }, eff)
      | _, _ => some (.error "invalid object metadata", eff)

/-- Go `App.UpdateConfig` (app.go, lines 269-284): the app afterwards, the
error returned (`none` for `nil`), and the effects. -/
def App.UpdateConfig (S : Sdk) (a : App) (profile region : String) :
    App × Option String × List Effect :=
  match awslocal.NewClient S profile region with
  | (.error err, eff) => (a, some ("failed to create new AWS client: " ++ err), eff)
  | (.ok client, eff) =>
    let cfg : config.Config := a.config.getD { Profile := "", Region := "" }
    ({ a with client := some client, config := some { cfg with Profile := profile, Region := region } },
      none, eff)

/-- The outcome of one `App.Update`: the model and the command it returns,
and the effects of the call. -/
structure Step where
  app : App
  cmd : Option tea.Cmd
  effects : List Effect
deriving DecidableEq, Repr

/-- The end of Go `App.Update` (app.go, lines 182-198): the message is handed
to the active view. -/
def App.updateActiveView (T : Tui) (a : App) (msg : tea.Msg) : Step :=
  if a.activeView == "profile" then
    let r := a.profileView.Update T msg
    { app := { a with profileView := r.1 }, cmd := r.2, effects := [] }
  else if a.activeView == "bucket" then
    let r := a.bucketView.Update T msg
    { app := { a with bucketView := r.1 }, cmd := r.2, effects := [] }
  else if a.activeView == "object" then
    let r := a.objectView.Update T msg
    { app := { a with objectView := r.1 }, cmd := r.2, effects := [] }
  else { app := a, cmd := none, effects := [] }

/-- Go `App.Update` (app.go, lines 145-199), at clock reading `now`; `none`
when the call dereferences `nil`. -/
def App.Update (T : Tui) (S : Sdk) (now : Time) (a : App) (msg : tea.Msg) : Option Step :=
  match msg with
  | .KeyMsg k =>
    if key.Matches k a.keyMap.Quit then
      some { app := a, cmd := some .Quit, effects := [] }
    else if key.Matches k a.keyMap.Help then
      some { app := { a with help := { a.help with ShowAll := !a.help.ShowAll } },
             cmd := none, effects := [] }
    else if key.Matches k a.keyMap.Back then
      if a.activeView == "object" then
        some { app := { a with activeView := "bucket" }, cmd := none, effects := [] }
      else some (a.updateActiveView T msg)
    else if key.Matches k a.keyMap.Refresh then
      some { app := a, cmd := none, effects := [] }
    else some (a.updateActiveView T msg)
  | .ProfileSelectedMsg Profile =>
    match a.UpdateConfig S Profile "us-east-1" with
    | (a, some err, eff) =>
      some { app := { a with statusBar := a.statusBar.SetMessage now ("Error: " ++ err) },
             cmd := none, effects := eff }
    | (a, none, eff) =>
      let a := { a with activeView := "bucket" }
      let eff := eff ++ [Effect.print ("Loading buckets for profile: " ++ Profile ++ "\n")]
      match a.ListBuckets S with
      | none => none
      | some (.error err, eff2) =>
        some { app := { a with statusBar :=
                          a.statusBar.SetMessage now ("Error loading buckets: " ++ err) },
               cmd := none,
               effects := eff ++ eff2 ++ [Effect.print ("Error loading buckets: " ++ err ++ "\n")] }
      | some (.ok buckets, eff2) =>
        some { app := { a with bucketView := a.bucketView.SetBuckets buckets },
               cmd := none,
               effects := eff ++ eff2 ++
                 [Effect.print ("Found " ++ toString buckets.length ++ " buckets\n")] }
  | _ => some (a.updateActiveView T msg)

/-- Go `App.View` (app.go, lines 202-213). -/
def App.View (T : Tui) (a : App) : String :=
  if a.activeView == "profile" then a.profileView.View T
  else if a.activeView == "bucket" then a.bucketView.View T
  else if a.activeView == "object" then a.objectView.View T
  else "Invalid view"

/-- The event loop of `App.Run` (app.go, lines 216-220) on a sequence of
messages, each with the clock reading at which it is processed: `App.Update`
is applied to them in turn. -/
def App.Updates (T : Tui) (S : Sdk) (a : App) : List (Time × tea.Msg) → Option App
  | [] => some a
  | (now, msg) :: rest =>
    match a.Update T S now msg with
    | none => none
    | some r => App.Updates T S r.app rest

/-! ## A concrete environment, for evaluating the definitions -/

/-- The text a list item is filtered by (`FilterValue()` of `ProfileItem` and
`BucketItem`). -/
def list.Item.FilterValue : list.Item → String
  | .profile i => i.profile
  | .bucket i => i.name

/-- The items a list shows: all of them, or with a filter those whose filter
value contains the filter text. -/
def list.Model.visible (m : list.Model) : List list.Item :=
  match m.filterState with
  | .Unfiltered => m.items
  | _ => m.items.filter fun i => decide (List.IsInfix m.filterValue.data i.FilterValue.data)

/-- A small list component in the manner of the bubbles list, whose default
key map binds `esc` to cancel-while-filtering, to clear-filter (enabled only
while a filter is applied) and, with `q`, to quit.  While a filter is being
typed, `esc` drops it, `enter` or `tab` applies it and any other key is added
to the filter text.  Otherwise `esc` clears an applied filter and, when there is
none, returns `tea.Quit`, as `q` does; `/` starts a filter; `down`/`j` and
`up`/`k` move the cursor within the items shown. -/
def exampleTui : Tui where
  listNew := fun items width height =>
    { items := items, Title := "List", titleStyle := lipgloss.NewStyle, showHelp := true,
      showStatusBar := true, filteringEnabled := true, width := width, height := height,
      cursor := 0, filterState := .Unfiltered, filterValue := "" }
  listUpdate := fun m msg =>
    match msg with
    | .KeyMsg k =>
      match m.filterState with
      | .Filtering =>
        if k == "esc" then
          ({ m with filterState := .Unfiltered, filterValue := "" }, none)
        else if k == "enter" || k == "tab" then
          ({ m with filterState := if m.filterValue == "" then .Unfiltered else .FilterApplied,
                    cursor := 0 }, none)
        else ({ m with filterValue := m.filterValue ++ k, cursor := 0 }, none)
      | st =>
        if k == "esc" && st == .FilterApplied then
          ({ m with filterState := .Unfiltered, filterValue := "" }, none)
        else if k == "esc" || k == "q" then (m, some .Quit)
        else if k == "/" && m.filteringEnabled then
          ({ m with filterState := .Filtering, filterValue := "", cursor := 0 },
            some (.component 0))
        else if k == "down" || k == "j" then
          ({ m with cursor := if m.cursor + 1 < m.visible.length then m.cursor + 1 else m.cursor },
            none)
        else if k == "up" || k == "k" then ({ m with cursor := m.cursor - 1 }, none)
        else (m, none)
    | _ => (m, none)
  listSelectedItem := fun m => m.visible.get? m.cursor
  listView := fun m => m.Title
  Render := fun _ text => text
  Format := fun t _ => toString t

/-- An SDK in which the profile `dev` has no credentials, every other profile
loads, and the account owns the buckets `a` and `b`. -/
def exampleSdk : Sdk where
  LoadDefaultConfig := fun profile _ =>
    if profile = "dev" then .error "failed to get shared config profile, dev" else .ok 1
  Retrieve := fun _ => .ok ()
  ListBuckets := fun _ =>
    .ok [{ Name := some "a", CreationDate := some 10 }, { Name := some "b", CreationDate := some 20 }]
  ListObjectsV2 := fun _ _ _ _ => .ok []
  HeadObject := fun _ _ key =>
    if key = "k" then .ok { ContentLength := some 5, LastModified := some 7, StorageClass := "STANDARD" }
    else if key = "half" then .ok { ContentLength := none, LastModified := some 7, StorageClass := "" }
    else .error "NotFound"

/-- The app as `New` makes it when the profiles are `default` and `dev`. -/
def exampleApp : App :=
  { client := none, config := none, help := help.New, keyMap := DefaultKeyMap,
    activeView := "profile",
    profileView := views.NewProfileView exampleTui views.DefaultTheme ["default", "dev"],
    bucketView := views.NewBucketView exampleTui views.DefaultTheme,
    objectView := views.NewObjectView exampleTui views.DefaultTheme,
    statusBar := views.NewStatusBar views.DefaultTheme 0 }

/-- A host whose credentials file names `dev`, `default` and `b` and whose
config file names `dev`, `a`, an SSO session, `default` and `c`. -/
def exampleHost : Host :=
  Host.ofFiles (some "[dev]\nkey = 1\n [default] \n[b]")
    (some "[profile dev]\n[profile a]\n[sso-session x]\n[default]\nregion = r\n[c]")

/-- The example SDK, except that listing the buckets is denied. -/
def exampleSdkDenied : Sdk :=
  { exampleSdk with ListBuckets := fun _ => .error "AccessDenied" }

/-- The example app with the filter `dev` applied to the list of profiles. -/
def exampleAppFiltered : App :=
  { exampleApp with
    profileView := { exampleApp.profileView with
      list := { exampleApp.profileView.list with
        filterState := .FilterApplied, filterValue := "dev" } } }

/-! ## Lemmas on the library models -/

theorem stringLE_iff (a b : String) : stringLE a b = true ↔ a ≤ b := by
  unfold stringLE
  rw [decide_eq_true_iff]
  exact String.le_iff_toList_le.symm

theorem orderedInsert_congr {α : Type} {r s : α → α → Prop} [DecidableRel r] [DecidableRel s]
    (h : ∀ a b, r a b ↔ s a b) (a : α) (l : List α) :
    l.orderedInsert r a = l.orderedInsert s a := by
  induction l with
  | nil => rfl
  | cons b l ih =>
    by_cases hab : r a b
    · simp [List.orderedInsert, hab, (h a b).1 hab]
    · have hs : ¬ s a b := fun hs => hab ((h a b).2 hs)
      simp [List.orderedInsert, hab, hs, ih]

theorem insertionSort_congr {α : Type} {r s : α → α → Prop} [DecidableRel r] [DecidableRel s]
    (h : ∀ a b, r a b ↔ s a b) (l : List α) :
    l.insertionSort r = l.insertionSort s := by
  induction l with
  | nil => rfl
  | cons b l ih => simp [List.insertionSort, ih, orderedInsert_congr h]

theorem sort_Strings_eq (x : List String) :
    sort.Strings x = x.insertionSort (fun a b => a ≤ b) :=
  insertionSort_congr stringLE_iff x

theorem sort_Strings_sorted (x : List String) : (sort.Strings x).Sorted (fun a b => a ≤ b) := by
  rw [sort_Strings_eq]
  exact List.sorted_insertionSort _ x

theorem sort_Strings_perm (x : List String) : (sort.Strings x).Perm x := by
  rw [sort_Strings_eq]
  exact List.perm_insertionSort _ x

theorem StringSet.mem_set_of_mem {m : StringSet} {k x : String} (h : x ∈ m) : x ∈ m.set k := by
  unfold StringSet.set
  split
  · exact h
  · exact List.mem_append_left _ h

theorem StringSet.nodup_set {m : StringSet} (k : String) (h : m.Nodup) : (m.set k).Nodup := by
  unfold StringSet.set
  split
  · exact h
  · rename_i hk
    exact List.Nodup.append h (List.nodup_singleton k) (by simpa using hk)

theorem credentialsLine_nodup {m : StringSet} (line : String) (h : m.Nodup) :
    (credentialsLine m line).Nodup := by
  unfold credentialsLine
  simp only []
  split
  · split
    · exact StringSet.nodup_set _ h
    · exact h
  · exact h

theorem credentialsLine_mem {m : StringSet} (line : String) {x : String} (h : x ∈ m) :
    x ∈ credentialsLine m line := by
  unfold credentialsLine
  simp only []
  split
  · split
    · exact StringSet.mem_set_of_mem h
    · exact h
  · exact h

theorem configLine_nodup {m : StringSet} (line : String) (h : m.Nodup) :
    (configLine m line).Nodup := by
  unfold configLine
  simp only []
  split
  · exact StringSet.nodup_set _ h
  · split
    · split
      · exact StringSet.nodup_set _ h
      · exact h
    · exact h

theorem configLine_mem {m : StringSet} (line : String) {x : String} (h : x ∈ m) :
    x ∈ configLine m line := by
  unfold configLine
  simp only []
  split
  · exact StringSet.mem_set_of_mem h
  · split
    · split
      · exact StringSet.mem_set_of_mem h
      · exact h
    · exact h

/-- A loop that only ever assigns `m[k] = true` keeps the keys distinct and
keeps every key it started with. -/
theorem foldl_keeps {f : StringSet → String → StringSet}
    (hn : ∀ m line, m.Nodup → (f m line).Nodup)
    (hm : ∀ m line x, x ∈ m → x ∈ f m line) (lines : List String) (m : StringSet) :
    (m.Nodup → (lines.foldl f m).Nodup) ∧ ∀ x, x ∈ m → x ∈ lines.foldl f m := by
  induction lines generalizing m with
  | nil => exact ⟨fun h => h, fun _ h => h⟩
  | cons l ls ih =>
    refine ⟨fun h => (ih (f m l)).1 (hn m l h), fun x h => (ih (f m l)).2 x (hm m l x h)⟩

theorem collectProfiles_nodup (h : Host) (home : String) : (collectProfiles h home).Nodup := by
  have h0 : (StringSet.set [] "default").Nodup := StringSet.nodup_set _ List.nodup_nil
  unfold collectProfiles
  simp only []
  have h1 : (match h.ReadFile (h.Join home ".aws" "credentials") with
      | .ok credData =>
        (strings.Split credData '\n').foldl credentialsLine (StringSet.set [] "default")
      | .error _ => StringSet.set [] "default").Nodup := by
    split
    · exact (foldl_keeps (fun _ l hm => credentialsLine_nodup l hm)
        (fun _ l _ hx => credentialsLine_mem l hx) _ _).1 h0
    · exact h0
  split
  · exact (foldl_keeps (fun _ l hm => configLine_nodup l hm)
      (fun _ l _ hx => configLine_mem l hx) _ _).1 h1
  · exact h1

theorem collectProfiles_default (h : Host) (home : String) :
    "default" ∈ collectProfiles h home := by
  have h0 : "default" ∈ StringSet.set [] "default" := by simp [StringSet.set]
  unfold collectProfiles
  simp only []
  have h1 : "default" ∈ (match h.ReadFile (h.Join home ".aws" "credentials") with
      | .ok credData =>
        (strings.Split credData '\n').foldl credentialsLine (StringSet.set [] "default")
      | .error _ => StringSet.set [] "default") := by
    split
    · exact (foldl_keeps (fun _ l hm => credentialsLine_nodup l hm)
        (fun _ l _ hx => credentialsLine_mem l hx) _ _).2 _ h0
    · exact h0
  split
  · exact (foldl_keeps (fun _ l hm => configLine_nodup l hm)
      (fun _ l _ hx => configLine_mem l hx) _ _).2 _ h1
  · exact h1

/-- An empty credentials file has one empty line, which adds no name. -/
theorem credentials_empty_file (m : StringSet) :
    (strings.Split "" '\n').foldl credentialsLine m = m := rfl

/-- An empty config file has one empty line, which adds no name. -/
theorem config_empty_file (m : StringSet) :
    (strings.Split "" '\n').foldl configLine m = m := rfl

/-- The map `profiles` is the same when a file that cannot be read is
replaced by an empty file. -/
theorem collectProfiles_absent_as_empty (h h' : Host) (home : String)
    (hJoin : h'.Join = h.Join)
    (hRead : ∀ p, h'.ReadFile p = h.ReadFile p ∨
      ((∃ e, h.ReadFile p = .error e) ∧ h'.ReadFile p = .ok "")) :
    collectProfiles h' home = collectProfiles h home := by
  unfold collectProfiles
  simp only [hJoin]
  have h1 : (match h'.ReadFile (h.Join home ".aws" "credentials") with
      | .ok credData =>
        (strings.Split credData '\n').foldl credentialsLine (StringSet.set [] "default")
      | .error _ => StringSet.set [] "default") =
      (match h.ReadFile (h.Join home ".aws" "credentials") with
      | .ok credData =>
        (strings.Split credData '\n').foldl credentialsLine (StringSet.set [] "default")
      | .error _ => StringSet.set [] "default") := by
    rcases hRead (h.Join home ".aws" "credentials") with hr | ⟨⟨e, he⟩, hr⟩
    · rw [hr]
    · rw [hr, he]
      exact credentials_empty_file _
  rw [h1]
  rcases hRead (h.Join home ".aws" "config") with hr | ⟨⟨e, he⟩, hr⟩
  · rw [hr]
  · rw [hr, he]
    exact config_empty_file _

/-! ## Lemmas on section headers -/

/-- A list with a given beginning and a given end that do not overlap is the
beginning, a middle part and the end. -/
theorem prefix_suffix_split {p s l : List Char} (hp : p <+: l) (hs : s <:+ l)
    (hlen : p.length + s.length ≤ l.length) : ∃ m, l = p ++ m ++ s := by
  obtain ⟨r, hr⟩ := hp
  obtain ⟨i, hi⟩ := hs
  have h := hr.trans hi.symm
  rcases List.append_eq_append_iff.1 h with ⟨a, _, ha⟩ | ⟨c, hc, hc2⟩
  · exact ⟨a, by rw [← hr, ha, List.append_assoc]⟩
  · have h1 : l.length = p.length + r.length := by rw [← hr, List.length_append]
    have h2 : s.length = c.length + r.length := by rw [hc2, List.length_append]
    have h3 : c.length = 0 := by omega
    have hc0 : c = [] := List.length_eq_zero.1 h3
    subst hc0
    refine ⟨[], ?_⟩
    rw [← hr, hc2]
    simp

/-- The lines that begin with `[` and end with `]` are the lines `[X]`. -/
theorem bracketed_iff (t : String) :
    (strings.HasPrefix t "[" && strings.HasSuffix t "]") = true ↔
      ∃ X : String, t = "[" ++ X ++ "]" := by
  unfold strings.HasPrefix strings.HasSuffix
  rw [Bool.and_eq_true, List.isPrefixOf_iff_prefix, List.isSuffixOf_iff_suffix]
  constructor
  · rintro ⟨hp, hs⟩
    have hlen : ("[".data).length + ("]".data).length ≤ t.data.length := by
      obtain ⟨r, hr⟩ := hp
      obtain ⟨i, hi⟩ := hs
      cases r with
      | nil =>
        exfalso
        rw [← hr] at hi
        cases i with
        | nil => exact absurd hi (by decide)
        | cons c i =>
          have := congrArg List.length hi
          simp at this
      | cons c r =>
        rw [← hr]
        simp
    obtain ⟨m, hm⟩ := prefix_suffix_split hp hs hlen
    exact ⟨⟨m⟩, String.ext (by simp [String.data_append, hm])⟩
  · rintro ⟨X, rfl⟩
    simp only [String.data_append]
    exact ⟨⟨X.data ++ "]".data, by simp⟩, ⟨"[".data ++ X.data, by simp⟩⟩

/-- The lines that begin with `[profile ` and end with `]` are the lines
`[profile X]`. -/
theorem profile_header_iff (t : String) :
    (strings.HasPrefix t "[profile " && strings.HasSuffix t "]") = true ↔
      ∃ X : String, t = "[profile " ++ X ++ "]" := by
  unfold strings.HasPrefix strings.HasSuffix
  rw [Bool.and_eq_true, List.isPrefixOf_iff_prefix, List.isSuffixOf_iff_suffix]
  constructor
  · rintro ⟨hp, hs⟩
    have hlen : ("[profile ".data).length + ("]".data).length ≤ t.data.length := by
      obtain ⟨r, hr⟩ := hp
      obtain ⟨i, hi⟩ := hs
      cases r with
      | nil =>
        exfalso
        rw [← hr, List.append_nil] at hi
        have h9 := congrArg List.getLast? hi
        rw [List.getLast?_append] at h9
        have h10 : ("]".data.getLast?.or i.getLast?) = some ']' := rfl
        rw [h10] at h9
        exact absurd h9 (by decide)
      | cons c r =>
        rw [← hr]
        simp
    obtain ⟨m, hm⟩ := prefix_suffix_split hp hs hlen
    exact ⟨⟨m⟩, String.ext (by simp [String.data_append, hm])⟩
  · rintro ⟨X, rfl⟩
    simp only [String.data_append]
    exact ⟨⟨X.data ++ "]".data, by simp⟩, ⟨"[profile ".data ++ X.data, by simp⟩⟩

/-- The cutset `[]` of `strings.Trim` holds the bracket characters. -/
theorem cutset_brackets (c : Char) : "[]".data.contains c = isBracket c := by
  have h : "[]".data = ['[', ']'] := rfl
  rw [h]
  simp only [isBracket, List.contains, List.elem]
  cases c == '[' <;> cases c == ']' <;> rfl

/-- Trimming the brackets off `[X]` gives `X` when `X` neither begins nor ends
with a bracket. -/
theorem trim_bracketed (X : String) (h : noBracketAtEnds X = true) :
    strings.Trim ("[" ++ X ++ "]") "[]" = X := by
  apply String.ext
  have hcut : (fun c : Char => "[]".data.contains c) = isBracket := funext cutset_brackets
  have hd : ("[" ++ X ++ "]").data = '[' :: (X.data ++ [']']) := by
    simp [String.data_append]
  unfold strings.Trim
  simp only [hcut, hd]
  unfold noBracketAtEnds at h
  rw [Bool.and_eq_true, Bool.not_eq_true', Bool.not_eq_true'] at h
  obtain ⟨hfirst, hlast⟩ := h
  rw [List.dropWhile_cons_of_pos (by decide)]
  cases hx : X.data with
  | nil => simp [List.dropWhile, List.rdropWhile, isBracket]
  | cons x xs =>
    rw [hx] at hfirst hlast
    have hxb : ¬ isBracket x = true := by simpa using hfirst
    rw [List.cons_append, List.dropWhile_cons_of_neg hxb, ← List.cons_append,
      List.rdropWhile_concat_pos _ _ _ (by decide)]
    rw [List.rdropWhile_eq_self_iff]
    intro hl
    rw [List.getLast?_eq_getLast _ hl] at hlast
    simpa using hlast

/-- Taking `]` off the end and `[profile ` off the beginning of `[profile X]`
gives `X`. -/
theorem trim_profile_header (X : String) :
    strings.TrimPrefix (strings.TrimSuffix ("[profile " ++ X ++ "]") "]") "[profile " = X := by
  have h1 : strings.TrimSuffix ("[profile " ++ X ++ "]") "]" = "[profile " ++ X := by
    have hs : strings.HasSuffix ("[profile " ++ X ++ "]") "]" = true := by
      unfold strings.HasSuffix
      rw [List.isSuffixOf_iff_suffix]
      exact ⟨("[profile " ++ X).data, by simp [String.data_append]⟩
    unfold strings.TrimSuffix
    rw [if_pos hs]
    apply String.ext
    have hl : ("]" : String).data.length = 1 := rfl
    simp [String.data_append, hl]
  have h2 : strings.HasPrefix ("[profile " ++ X) "[profile " = true := by
    unfold strings.HasPrefix
    rw [List.isPrefixOf_iff_prefix]
    exact ⟨X.data, by simp [String.data_append]⟩
  rw [h1]
  unfold strings.TrimPrefix
  rw [if_pos h2]
  apply String.ext
  simp [String.data_append]

/-- The name between the brackets of a line `[X]` is determined by the
line. -/
theorem bracketed_inj {X Y : String} (h : "[" ++ X ++ "]" = "[" ++ Y ++ "]") : X = Y := by
  have hd := congrArg String.data h
  simp only [String.data_append, List.append_assoc] at hd
  exact String.ext (List.append_cancel_right (List.append_cancel_left hd))

/-- A line `[X]` whose `X` begins with `profile ` is a line `[profile Y]`. -/
theorem bracketed_profile {X : String} (h : strings.HasPrefix X "profile " = true) :
    ∃ Y : String, "[" ++ X ++ "]" = "[profile " ++ Y ++ "]" := by
  unfold strings.HasPrefix at h
  rw [List.isPrefixOf_iff_prefix] at h
  obtain ⟨r, hr⟩ := h
  refine ⟨⟨r⟩, String.ext ?_⟩
  simp only [String.data_append, ← hr]
  rfl

/-! ## Lemmas on the names the two loops collect -/

theorem StringSet.mem_set_iff (m : StringSet) (k x : String) :
    x ∈ m.set k ↔ x ∈ m ∨ x = k := by
  unfold StringSet.set
  split
  · rename_i hk
    constructor
    · exact Or.inl
    · rintro (h | rfl)
      · exact h
      · exact hk
  · simp

theorem credentialsLine_eq (m : StringSet) (line : String) :
    credentialsLine m line =
      match credentialsAdds line with
      | some k => m.set k
      | none => m := by
  unfold credentialsLine credentialsAdds
  simp only []
  split
  · split <;> rfl
  · rfl

theorem configLine_eq (m : StringSet) (line : String) :
    configLine m line =
      match configAdds line with
      | some k => m.set k
      | none => m := by
  unfold configLine configAdds
  simp only []
  split
  · rfl
  · split
    · split <;> rfl
    · rfl

theorem credentialsLine_mem_iff (m : StringSet) (line x : String) :
    x ∈ credentialsLine m line ↔ x ∈ m ∨ credentialsAdds line = some x := by
  rw [credentialsLine_eq]
  cases h : credentialsAdds line with
  | none => simp
  | some k =>
    simp only [StringSet.mem_set_iff, Option.some.injEq]
    exact ⟨fun h => h.imp id Eq.symm, fun h => h.imp id Eq.symm⟩

theorem configLine_mem_iff (m : StringSet) (line x : String) :
    x ∈ configLine m line ↔ x ∈ m ∨ configAdds line = some x := by
  rw [configLine_eq]
  cases h : configAdds line with
  | none => simp
  | some k =>
    simp only [StringSet.mem_set_iff, Option.some.injEq]
    exact ⟨fun h => h.imp id Eq.symm, fun h => h.imp id Eq.symm⟩

/-- The keys after a loop over the lines: those before it and those the
lines add. -/
theorem mem_foldl_iff {f : StringSet → String → StringSet} {adds : String → Option String}
    (hf : ∀ m line x, x ∈ f m line ↔ x ∈ m ∨ adds line = some x)
    (lines : List String) (m : StringSet) (x : String) :
    x ∈ lines.foldl f m ↔ x ∈ m ∨ ∃ line ∈ lines, adds line = some x := by
  induction lines generalizing m with
  | nil => simp
  | cons l ls ih =>
    rw [List.foldl_cons, ih, hf]
    simp only [List.mem_cons, exists_eq_or_imp]
    tauto

theorem collectProfiles_eq_fold (h : Host) (home : String) :
    collectProfiles h home =
      (h.fileLines (h.Join home ".aws" "config")).foldl configLine
        ((h.fileLines (h.Join home ".aws" "credentials")).foldl credentialsLine
          (StringSet.set [] "default")) := by
  unfold collectProfiles Host.fileLines
  simp only []
  cases h.ReadFile (h.Join home ".aws" "credentials") <;>
    cases h.ReadFile (h.Join home ".aws" "config") <;> rfl

/-- The names in the map after both loops: `default` and those the lines of
the two files add. -/
theorem mem_collectProfiles_iff (h : Host) (home x : String) :
    x ∈ collectProfiles h home ↔
      x = "default" ∨
      (∃ line ∈ h.fileLines (h.Join home ".aws" "credentials"), credentialsAdds line = some x) ∨
      (∃ line ∈ h.fileLines (h.Join home ".aws" "config"), configAdds line = some x) := by
  rw [collectProfiles_eq_fold, mem_foldl_iff configLine_mem_iff,
    mem_foldl_iff credentialsLine_mem_iff]
  have h0 : x ∈ StringSet.set [] "default" ↔ x = "default" := by
    simp [StringSet.set]
  rw [h0]
  exact or_assoc

/-- The name between `[profile ` and `]` is determined by the line. -/
theorem profile_header_inj {X Y : String}
    (h : "[profile " ++ X ++ "]" = "[profile " ++ Y ++ "]") : X = Y := by
  have hd := congrArg String.data h
  simp only [String.data_append, List.append_assoc] at hd
  exact String.ext (List.append_cancel_right (List.append_cancel_left hd))

/-- The name between the brackets of a line `[X]`, computed from the line. -/
theorem bracketed_middle {t X : String} (h : t = "[" ++ X ++ "]") :
    X = ⟨(t.data.drop 1).dropLast⟩ := by
  subst h
  apply String.ext
  have h1 : ("[" : String).data = ['['] := rfl
  have h2 : ("]" : String).data = [']'] := rfl
  simp [String.data_append, h1, h2]

/-- What a line of the credentials file adds, in terms of its form: a line
`[X]`, with `X` free of brackets at its ends, adds `X` unless `X` is
`default`; no other line adds anything. -/
theorem credentialsAdds_iff (line x : String)
    (hX : ∀ X, strings.TrimSpace line = "[" ++ X ++ "]" → noBracketAtEnds X = true) :
    credentialsAdds line = some x ↔
      strings.TrimSpace line = "[" ++ x ++ "]" ∧ x ≠ "default" := by
  unfold credentialsAdds
  simp only []
  by_cases hb : (strings.HasPrefix (strings.TrimSpace line) "[" &&
      strings.HasSuffix (strings.TrimSpace line) "]") = true
  · obtain ⟨X, ht⟩ := (bracketed_iff _).1 hb
    have htrim : strings.Trim (strings.TrimSpace line) "[]" = X := by
      rw [ht]
      exact trim_bracketed X (hX X ht)
    rw [if_pos hb, htrim]
    by_cases hd : X = "default"
    · subst hd
      simp only [bne_self_eq_false, Bool.false_eq_true, if_false]
      constructor
      · intro h
        cases h
      · rintro ⟨h1, h2⟩
        rw [ht] at h1
        exact absurd (bracketed_inj h1).symm h2
    · have hne : (X != "default") = true := by simpa using hd
      rw [if_pos hne]
      constructor
      · intro h
        cases h
        exact ⟨ht, hd⟩
      · rintro ⟨h1, _⟩
        rw [ht] at h1
        rw [bracketed_inj h1]
  · rw [if_neg hb]
    constructor
    · intro h
      cases h
    · rintro ⟨h1, _⟩
      exact absurd ((bracketed_iff _).2 ⟨x, h1⟩) hb

/-- What a line of the config file adds, in terms of its form: a line
`[profile X]` adds `X`; any other line `[X]` that does not begin with
`[sso-session`, with `X` free of brackets at its ends, adds `X` unless `X` is
`default`; no other line adds anything. -/
theorem configAdds_iff (line x : String)
    (hX : ∀ X, strings.TrimSpace line = "[" ++ X ++ "]" →
      (¬ ∃ Y : String, strings.TrimSpace line = "[profile " ++ Y ++ "]") →
      strings.HasPrefix (strings.TrimSpace line) "[sso-session" = false →
      noBracketAtEnds X = true) :
    configAdds line = some x ↔
      strings.TrimSpace line = "[profile " ++ x ++ "]" ∨
      (strings.TrimSpace line = "[" ++ x ++ "]" ∧
        (¬ ∃ Y : String, strings.TrimSpace line = "[profile " ++ Y ++ "]") ∧
        strings.HasPrefix (strings.TrimSpace line) "[sso-session" = false ∧
        x ≠ "default") := by
  unfold configAdds
  simp only []
  by_cases hp : (strings.HasPrefix (strings.TrimSpace line) "[profile " &&
      strings.HasSuffix (strings.TrimSpace line) "]") = true
  · obtain ⟨Y, ht⟩ := (profile_header_iff _).1 hp
    rw [if_pos hp]
    have htrim : strings.TrimPrefix (strings.TrimSuffix (strings.TrimSpace line) "]")
        "[profile " = Y := by
      rw [ht]
      exact trim_profile_header Y
    rw [htrim]
    constructor
    · intro h
      cases h
      exact Or.inl ht
    · rintro (h1 | ⟨_, hno, _⟩)
      · rw [ht] at h1
        rw [profile_header_inj h1]
      · exact absurd ⟨Y, ht⟩ hno
  · have hno : ¬ ∃ Y : String, strings.TrimSpace line = "[profile " ++ Y ++ "]" :=
      fun h => hp ((profile_header_iff _).2 h)
    rw [if_neg hp]
    by_cases hb : (strings.HasPrefix (strings.TrimSpace line) "[" &&
        strings.HasSuffix (strings.TrimSpace line) "]" &&
        !strings.HasPrefix (strings.TrimSpace line) "[sso-session") = true
    · rw [if_pos hb]
      rw [Bool.and_eq_true, Bool.not_eq_true'] at hb
      obtain ⟨hbr, hsso⟩ := hb
      obtain ⟨X, ht⟩ := (bracketed_iff _).1 hbr
      have htrim : strings.Trim (strings.TrimSpace line) "[]" = X := by
        rw [ht]
        exact trim_bracketed X (hX X ht hno hsso)
      rw [htrim]
      have hnp : strings.HasPrefix X "profile " = false := by
        cases hpp : strings.HasPrefix X "profile " with
        | false => rfl
        | true =>
          obtain ⟨Y, hY⟩ := bracketed_profile hpp
          exact absurd ⟨Y, ht.trans hY⟩ hno
      rw [hnp]
      by_cases hd : X = "default"
      · subst hd
        simp only [bne_self_eq_false, Bool.and_false, Bool.false_eq_true, if_false]
        constructor
        · intro h
          cases h
        · rintro (h1 | ⟨h1, _, _, h2⟩)
          · exact absurd ⟨x, h1⟩ hno
          · rw [ht] at h1
            exact absurd (bracketed_inj h1).symm h2
      · have hne : (!false && X != "default") = true := by simpa using hd
        rw [if_pos hne]
        constructor
        · intro h
          cases h
          exact Or.inr ⟨ht, hno, hsso, hd⟩
        · rintro (h1 | ⟨h1, _⟩)
          · exact absurd ⟨x, h1⟩ hno
          · rw [ht] at h1
            rw [bracketed_inj h1]
    · rw [if_neg hb]
      constructor
      · intro h
        cases h
      · rintro (h1 | ⟨h1, _, hsso, _⟩)
        · exact absurd ⟨x, h1⟩ hno
        · have hbr := (bracketed_iff _).2 ⟨x, h1⟩
          exact absurd (by rw [hbr, hsso]; rfl) hb

/-- A line `[profile X]` is a line `[Y]`, with `Y` the text `profile X`. -/
theorem profile_header_bracketed {t : String}
    (h : (strings.HasPrefix t "[profile " && strings.HasSuffix t "]") = true) :
    (strings.HasPrefix t "[" && strings.HasSuffix t "]") = true := by
  obtain ⟨X, hX⟩ := (profile_header_iff t).1 h
  refine (bracketed_iff t).2 ⟨"profile " ++ X, ?_⟩
  rw [hX]
  apply String.ext
  simp only [String.data_append]
  rfl

/-- A line that begins with `[sso-session` does not begin with `[profile `. -/
theorem sso_not_profile {t : String} (h : strings.HasPrefix t "[sso-session" = true) :
    strings.HasPrefix t "[profile " = false := by
  unfold strings.HasPrefix at h ⊢
  rw [List.isPrefixOf_iff_prefix] at h
  obtain ⟨r, hr⟩ := h
  rw [← hr]
  rfl

/-- The profiles of the example host. -/
theorem getAWSProfiles_exampleHost :
    getAWSProfiles exampleHost = .ok ["a", "b", "c", "default", "dev"] := rfl

/-! ## Lemmas on the orchestrator -/

/-- Handing a message to the active view touches that view only: no field of
the orchestrator itself changes and nothing is sent or printed. -/
theorem updateActiveView_frame (T : Tui) (a : App) (msg : tea.Msg) :
    (a.updateActiveView T msg).app.activeView = a.activeView ∧
    (a.updateActiveView T msg).app.keyMap = a.keyMap ∧
    (a.updateActiveView T msg).app.help = a.help ∧
    (a.updateActiveView T msg).app.client = a.client ∧
    (a.updateActiveView T msg).app.config = a.config ∧
    (a.updateActiveView T msg).app.statusBar = a.statusBar ∧
    (a.updateActiveView T msg).effects = [] := by
  unfold App.updateActiveView
  split
  · simp
  · split
    · simp
    · split <;> simp

/-- The example app is what `New` returns on a host whose credentials file
names the profile `dev`. -/
theorem New_example :
    New (Host.ofFiles (some "[dev]\naws_access_key_id = x\n") none) exampleTui 0 =
      .ok exampleApp := rfl

/-- The bindings are those of `DefaultKeyMap` in the app `New` returns. -/
theorem New_keyMap (H : Host) (T : Tui) (now : Time) (a : App) (h : New H T now = .ok a) :
    a.keyMap = DefaultKeyMap ∧ a.activeView = "profile" ∧ a.client = none := by
  unfold New at h
  split at h
  · cases h
  · cases h
    exact ⟨rfl, rfl, rfl⟩

/-- `App.Update` always returns: the client it lists the buckets of is the
one `UpdateConfig` has just stored, so no `nil` is dereferenced; and it never
changes the bindings. -/
theorem Update_total (T : Tui) (S : Sdk) (now : Time) (a : App) (msg : tea.Msg) :
    ∃ r, a.Update T S now msg = some r ∧ r.app.keyMap = a.keyMap := by
  have hf := fun m => (updateActiveView_frame T a m).2.1
  cases msg with
  | KeyMsg k =>
    simp only [App.Update]
    split
    · exact ⟨_, rfl, rfl⟩
    · split
      · exact ⟨_, rfl, rfl⟩
      · split
        · split
          · exact ⟨_, rfl, rfl⟩
          · exact ⟨_, rfl, hf _⟩
        · split
          · exact ⟨_, rfl, rfl⟩
          · exact ⟨_, rfl, hf _⟩
  | WindowSizeMsg w h => exact ⟨_, rfl, hf _⟩
  | BucketSelectedMsg b => exact ⟨_, rfl, hf _⟩
  | other n => exact ⟨_, rfl, hf _⟩
  | ProfileSelectedMsg p =>
    simp only [App.Update, App.UpdateConfig]
    rcases hn : awslocal.NewClient S p "us-east-1" with ⟨res, eff⟩
    cases res with
    | error e => exact ⟨_, rfl, rfl⟩
    | ok c =>
      simp only [App.ListBuckets, Option.map]
      rcases hl : c.ListBuckets S with ⟨lres, eff2⟩
      cases lres with
      | error e => exact ⟨_, rfl, rfl⟩
      | ok bs => exact ⟨_, rfl, rfl⟩

/-- The filtered example app is the example app after the keys `/`, `d`, `e`,
`v` and `tab`. -/
theorem exampleAppFiltered_reached :
    App.Updates exampleTui exampleSdk exampleApp
        [(1, .KeyMsg "/"), (2, .KeyMsg "d"), (3, .KeyMsg "e"), (4, .KeyMsg "v"),
          (5, .KeyMsg "tab")] = some exampleAppFiltered := by
  decide

/-- With the default bindings, `esc` matches the back binding only. -/
theorem Update_esc (T : Tui) (S : Sdk) (now : Time) (a : App) (hk : a.keyMap = DefaultKeyMap) :
    a.Update T S now (.KeyMsg "esc") =
      if a.activeView == "object" then
        some { app := { a with activeView := "bucket" }, cmd := none, effects := [] }
      else some (a.updateActiveView T (.KeyMsg "esc")) := by
  simp [App.Update, hk, DefaultKeyMap, key.Matches, key.NewBinding]

/-- One press of `esc` in the object or the bucket view ends in the bucket
view, with the bindings as they were. -/
theorem esc_step (T : Tui) (S : Sdk) (now : Time) (a : App) (hk : a.keyMap = DefaultKeyMap)
    (hv : a.activeView = "object" ∨ a.activeView = "bucket") :
    ∃ r, a.Update T S now (.KeyMsg "esc") = some r ∧ r.app.activeView = "bucket" ∧
      r.app.keyMap = DefaultKeyMap := by
  rw [Update_esc T S now a hk]
  rcases hv with hv | hv
  · simp [hv, hk]
  · have hf := updateActiveView_frame T a (.KeyMsg "esc")
    simp [hv, hf.1, hf.2.1, hk]

/-- Any number of presses of `esc` in the bucket view ends in the bucket
view. -/
theorem escs_from_bucket (T : Tui) (S : Sdk) (ts : List Time) :
    ∀ a : App, a.keyMap = DefaultKeyMap → a.activeView = "bucket" →
      ∃ a', a.Updates T S (ts.map fun t => (t, tea.Msg.KeyMsg "esc")) = some a' ∧
        a'.activeView = "bucket" := by
  induction ts with
  | nil => intro a _ hv; exact ⟨a, rfl, hv⟩
  | cons t ts ih =>
    intro a hk hv
    obtain ⟨r, hr, hrv, hrk⟩ := esc_step T S t a hk (Or.inr hv)
    obtain ⟨a', ha', hv'⟩ := ih r.app hrk hrv
    exact ⟨a', by simp [App.Updates, hr, ha'], hv'⟩

/-! ## The orchestrator: global keys -/

/-- C1. In the object view, the back key `esc` makes `App.Update` switch to
the bucket view and return no command; pressed again, now in the bucket view,
it leaves the active view at bucket; hence any `n ≥ 1` presses in a row that
start in the object view end in the bucket view. -/
theorem back_from_object_ends_in_bucket (T : Tui) (S : Sdk) (a : App)
    (hk : a.keyMap = DefaultKeyMap) (hv : a.activeView = "object") :
    (∀ now, a.Update T S now (.KeyMsg "esc") =
      some { app := { a with activeView := "bucket" }, cmd := none, effects := [] }) ∧
    (∀ now, ∃ r, App.Update T S now { a with activeView := "bucket" } (.KeyMsg "esc") = some r ∧
      r.app.activeView = "bucket") ∧
    (∀ ts : List Time, 1 ≤ ts.length →
      ∃ a', a.Updates T S (ts.map fun t => (t, tea.Msg.KeyMsg "esc")) = some a' ∧
        a'.activeView = "bucket") := by
  refine ⟨fun now => ?_, fun now => ?_, fun ts hts => ?_⟩
  · rw [Update_esc T S now a hk]
    simp [hv]
  · obtain ⟨r, hr, hrv, _⟩ :=
      esc_step T S now { a with activeView := "bucket" } hk (Or.inr rfl)
    exact ⟨r, hr, hrv⟩
  · cases ts with
    | nil => simp at hts
    | cons t ts =>
      obtain ⟨r, hr, hrv, hrk⟩ := esc_step T S t a hk (Or.inl hv)
      obtain ⟨a', ha', hv'⟩ := escs_from_bucket T S ts r.app hrk hrv
      exact ⟨a', by simp [App.Updates, hr, ha'], hv'⟩

/-- Witness of C1: the example app, moved to the object view. -/
theorem back_from_object_ends_in_bucket_witness :
    (∀ now, App.Update exampleTui exampleSdk now { exampleApp with activeView := "object" }
        (.KeyMsg "esc") =
      some { app := { exampleApp with activeView := "bucket" }, cmd := none, effects := [] }) ∧
    (∀ now, ∃ r, App.Update exampleTui exampleSdk now { exampleApp with activeView := "bucket" }
        (.KeyMsg "esc") = some r ∧ r.app.activeView = "bucket") ∧
    (∀ ts : List Time, 1 ≤ ts.length →
      ∃ a', App.Updates exampleTui exampleSdk { exampleApp with activeView := "object" }
          (ts.map fun t => (t, tea.Msg.KeyMsg "esc")) = some a' ∧
        a'.activeView = "bucket") :=
  back_from_object_ends_in_bucket exampleTui exampleSdk
    { exampleApp with activeView := "object" } rfl rfl

/-- C2. On a quit key (`q` or `ctrl+c`) `App.Update` returns `tea.Quit` and
the app as it was (active view, help flag, the three views, everything), with
no effect; the result is the same whatever the views would do with the key, so
the active view is not consulted. -/
theorem quit_short_circuits (T : Tui) (S : Sdk) (now : Time) (a : App)
    (hk : a.keyMap = DefaultKeyMap) (k : String) (hq : k = "q" ∨ k = "ctrl+c") :
    a.Update T S now (.KeyMsg k) = some { app := a, cmd := some .Quit, effects := [] } ∧
    ∀ T' : Tui, a.Update T' S now (.KeyMsg k) = a.Update T S now (.KeyMsg k) := by
  have h : ∀ T0 : Tui, a.Update T0 S now (.KeyMsg k) =
      some { app := a, cmd := some .Quit, effects := [] } := by
    intro T0
    rcases hq with hq | hq <;>
      simp [App.Update, hk, hq, DefaultKeyMap, key.Matches, key.NewBinding]
  exact ⟨h T, fun T' => by rw [h T', h T]⟩

/-- Witness of C2: `ctrl+c` in the example app. -/
theorem quit_short_circuits_witness :
    App.Update exampleTui exampleSdk 3 exampleApp (.KeyMsg "ctrl+c") =
      some { app := exampleApp, cmd := some .Quit, effects := [] } ∧
    ∀ T' : Tui, App.Update T' exampleSdk 3 exampleApp (.KeyMsg "ctrl+c") =
      App.Update exampleTui exampleSdk 3 exampleApp (.KeyMsg "ctrl+c") :=
  quit_short_circuits exampleTui exampleSdk 3 exampleApp rfl "ctrl+c" (Or.inr rfl)

/-- C3. On the help key `?` `App.Update` negates `help.ShowAll` and changes
nothing else, returns no command, has no effect and does not hand the key to
the active view; two presses in a row give back the app as it was. -/
theorem help_toggle_flips_flag_only (T : Tui) (S : Sdk) (now : Time) (a : App)
    (hk : a.keyMap = DefaultKeyMap) :
    a.Update T S now (.KeyMsg "?") =
      some { app := { a with help := { a.help with ShowAll := !a.help.ShowAll } },
             cmd := none, effects := [] } ∧
    (∀ T' : Tui, a.Update T' S now (.KeyMsg "?") = a.Update T S now (.KeyMsg "?")) ∧
    ∀ now', a.Updates T S [(now, .KeyMsg "?"), (now', .KeyMsg "?")] = some a := by
  have h : ∀ (T0 : Tui) (t : Time) (b : App), b.keyMap = DefaultKeyMap →
      b.Update T0 S t (.KeyMsg "?") =
        some { app := { b with help := { b.help with ShowAll := !b.help.ShowAll } },
               cmd := none, effects := [] } := by
    intro T0 t b hb
    simp [App.Update, hb, DefaultKeyMap, key.Matches, key.NewBinding]
  refine ⟨h T now a hk, fun T' => by rw [h T' now a hk, h T now a hk], fun now' => ?_⟩
  have h2 := h T now' { a with help := { a.help with ShowAll := !a.help.ShowAll } } hk
  obtain ⟨client, config, ⟨w, showAll, s1, s2, s3⟩, keyMap, av, pv, bv, ov, sb⟩ := a
  simp only [App.Updates, h T now _ hk, h2, Bool.not_not]

/-- Witness of C3: the help key in the example app. -/
theorem help_toggle_flips_flag_only_witness :
    App.Update exampleTui exampleSdk 3 exampleApp (.KeyMsg "?") =
      some { app := { exampleApp with
                      help := { exampleApp.help with ShowAll := !exampleApp.help.ShowAll } },
             cmd := none, effects := [] } ∧
    (∀ T' : Tui, App.Update T' exampleSdk 3 exampleApp (.KeyMsg "?") =
      App.Update exampleTui exampleSdk 3 exampleApp (.KeyMsg "?")) ∧
    ∀ now', App.Updates exampleTui exampleSdk exampleApp
      [(3, .KeyMsg "?"), (now', .KeyMsg "?")] = some exampleApp :=
  help_toggle_flips_flag_only exampleTui exampleSdk 3 exampleApp rfl

/-! ## The orchestrator: a profile is chosen -/

/-- C4. In the profile view, when the client for the chosen profile cannot be
made, `App.Update` keeps the profile view active, sets the status message to
`Error: ` followed by the error of `UpdateConfig`, sends no list-buckets
request, returns no command, and leaves the client, the config and the items
of the bucket view as they were. -/
theorem profile_chosen_client_failure (T : Tui) (S : Sdk) (now : Time) (a : App)
    (profile err : String) (eff : List Effect) (hv : a.activeView = "profile")
    (hfail : awslocal.NewClient S profile "us-east-1" = (.error err, eff)) :
    (a.UpdateConfig S profile "us-east-1").2.1 =
      some ("failed to create new AWS client: " ++ err) ∧
    ∃ r, a.Update T S now (.ProfileSelectedMsg profile) = some r ∧
      r.app.activeView = "profile" ∧
      r.app.statusBar.message = "Error: " ++ ("failed to create new AWS client: " ++ err) ∧
      (∀ e ∈ r.effects, e.isListBuckets = false) ∧
      r.cmd = none ∧
      r.app.client = a.client ∧ r.app.config = a.config ∧
      r.app.bucketView = a.bucketView ∧
      r.app = { a with statusBar := (a.statusBar.SetMessage now
                  ("Error: " ++ ("failed to create new AWS client: " ++ err))) } := by
  have heff : ∀ e ∈ eff, e.isListBuckets = false := by
    unfold awslocal.NewClient at hfail
    revert hfail
    simp only []
    split
    · intro h
      have h2 := (Prod.mk.inj h).2
      subst h2
      intro e he
      simp at he
      rcases he with rfl | rfl <;> rfl
    · split
      · intro h
        have h2 := (Prod.mk.inj h).2
        subst h2
        intro e he
        simp at he
        rcases he with rfl | rfl | rfl <;> rfl
      · intro h
        have h1 := (Prod.mk.inj h).1
        cases h1
  refine ⟨by simp [App.UpdateConfig, hfail], ?_⟩
  refine ⟨_, by simp [App.Update, App.UpdateConfig, hfail]; rfl, ?_⟩
  simp [hv, views.StatusBar.SetMessage]
  exact heff

/-- Witness of C4: the profile `dev`, for which the example SDK has no
credentials. -/
theorem profile_chosen_client_failure_witness :
    (exampleApp.UpdateConfig exampleSdk "dev" "us-east-1").2.1 =
      some ("failed to create new AWS client: " ++
        "unable to load SDK config: failed to get shared config profile, dev") ∧
    ∃ r, exampleApp.Update exampleTui exampleSdk 9 (.ProfileSelectedMsg "dev") = some r ∧
      r.app.activeView = "profile" ∧
      r.app.statusBar.message = "Error: " ++ ("failed to create new AWS client: " ++
        "unable to load SDK config: failed to get shared config profile, dev") ∧
      (∀ e ∈ r.effects, e.isListBuckets = false) ∧
      r.cmd = none ∧
      r.app.client = exampleApp.client ∧ r.app.config = exampleApp.config ∧
      r.app.bucketView = exampleApp.bucketView ∧
      r.app = { exampleApp with statusBar := (exampleApp.statusBar.SetMessage 9
                  ("Error: " ++ ("failed to create new AWS client: " ++
                    "unable to load SDK config: failed to get shared config profile, dev"))) } :=
  profile_chosen_client_failure exampleTui exampleSdk 9 exampleApp "dev"
    "unable to load SDK config: failed to get shared config profile, dev"
    [Effect.print "Creating AWS client for profile: dev, region: us-east-1\n",
      Effect.loadConfig "dev" "us-east-1"] rfl rfl

/-- C5. When the client for the chosen profile is made and its list-buckets
call returns `bs`, then after `App.Update` the bucket view is active and its
items are exactly the buckets of `bs`, in the same order, each with the name
and creation time of its bucket, whatever the items were before. -/
theorem profile_chosen_loads_buckets (T : Tui) (S : Sdk) (now : Time) (a : App)
    (profile : String) (c : awslocal.Client) (eff eff2 : List Effect)
    (bs : List awslocal.BucketItem)
    (hclient : awslocal.NewClient S profile "us-east-1" = (.ok c, eff))
    (hlist : c.ListBuckets S = (.ok bs, eff2)) :
    ∃ r, a.Update T S now (.ProfileSelectedMsg profile) = some r ∧
      r.app.activeView = "bucket" ∧
      r.app.bucketView.list.items =
        bs.map (fun b => list.Item.bucket { name := b.Name, creationDate := b.CreationDate }) ∧
      r.app.bucketView.list.items.length = bs.length ∧
      (∀ i (hi : i < bs.length), r.app.bucketView.list.items.get? i =
        some (list.Item.bucket { name := (bs.get ⟨i, hi⟩).Name,
                                 creationDate := (bs.get ⟨i, hi⟩).CreationDate })) := by
  refine ⟨_, by simp [App.Update, App.UpdateConfig, hclient, App.ListBuckets, hlist]; rfl, ?_⟩
  refine ⟨rfl, ?_, ?_, ?_⟩
  · simp [views.BucketView.SetBuckets, list.Model.SetItems]
  · simp [views.BucketView.SetBuckets, list.Model.SetItems]
  · intro i hi
    simp [views.BucketView.SetBuckets, list.Model.SetItems, List.getElem?_eq_getElem hi]

/-- Witness of C5: the profile `default` in the example SDK, whose account
owns the buckets `a` and `b`. -/
theorem profile_chosen_loads_buckets_witness :
    ∃ r, exampleApp.Update exampleTui exampleSdk 9 (.ProfileSelectedMsg "default") = some r ∧
      r.app.activeView = "bucket" ∧
      r.app.bucketView.list.items =
        [{ Name := "a", CreationDate := 10 }, { Name := "b", CreationDate := 20 }].map
          (fun b : awslocal.BucketItem =>
            list.Item.bucket { name := b.Name, creationDate := b.CreationDate }) ∧
      r.app.bucketView.list.items.length = 2 ∧
      (∀ i (hi : i < 2), r.app.bucketView.list.items.get? i =
        some (list.Item.bucket
          { name := (([{ Name := "a", CreationDate := 10 }, { Name := "b", CreationDate := 20 }] :
              List awslocal.BucketItem).get ⟨i, hi⟩).Name,
            creationDate := (([{ Name := "a", CreationDate := 10 },
              { Name := "b", CreationDate := 20 }] :
              List awslocal.BucketItem).get ⟨i, hi⟩).CreationDate })) :=
  profile_chosen_loads_buckets exampleTui exampleSdk 9 exampleApp "default" { s3Client := 1 }
    [Effect.print "Creating AWS client for profile: default, region: us-east-1\n",
      Effect.loadConfig "default" "us-east-1", Effect.retrieveCredentials 1,
      Effect.print "Successfully loaded credentials for profile: default\n"]
    [Effect.listBuckets 1]
    [{ Name := "a", CreationDate := 10 }, { Name := "b", CreationDate := 20 }] rfl rfl

/-! ## The orchestrator: rendering, and a bucket is chosen -/

/-- C6, what the code does. `App.View` returns the rendering of the active
view alone: writing any message to the status bar leaves the frame as it was,
in every app; and in the example app, after `SetMessage "Error: boom"`, the
status bar renders the message but the frame is the profile view's and does
not contain it. -/
theorem View_leaves_out_status_bar :
    (∀ (T : Tui) (a : App) (now : Time) (msg : String),
      App.View T { a with statusBar := a.statusBar.SetMessage now msg } = App.View T a) ∧
    views.StatusBar.View exampleTui (exampleApp.statusBar.SetMessage 5 "Error: boom") =
      "\n  Error: boom | 5" ∧
    App.View exampleTui
        { exampleApp with statusBar := exampleApp.statusBar.SetMessage 5 "Error: boom" } =
      "\nAWS Profile Selection\n\nUse ↑/↓ to navigate, Enter to select, ? for help\n\n" ++
        "Select AWS Profile" := by
  refine ⟨fun T a now msg => rfl, by decide, by decide⟩

/-- C7, what the code does. `App.Update` has no case for `BucketSelectedMsg`:
in every app the message is handed to the active view and nothing is sent to
the backend, so no list-objects request for the bucket is issued; in the bucket
view of the example app with a client, the call returns the app unchanged, no
command and no effect, although `App.ListObjects` would send the request
there. -/
theorem bucket_chosen_sends_nothing :
    (∀ (T : Tui) (S : Sdk) (now : Time) (a : App) (b : String),
      ∃ r, a.Update T S now (.BucketSelectedMsg b) = some r ∧
        r = a.updateActiveView T (.BucketSelectedMsg b) ∧
        r.effects = [] ∧ (∀ e ∈ r.effects, e.isListObjects b "" = false) ∧
        r.app.activeView = a.activeView) ∧
    App.Update exampleTui exampleSdk 9
        { exampleApp with client := some { s3Client := 1 }, activeView := "bucket" }
        (.BucketSelectedMsg "a") =
      some { app := { exampleApp with client := some { s3Client := 1 }, activeView := "bucket" },
             cmd := none, effects := [] } ∧
    App.ListObjects exampleSdk
        { exampleApp with client := some { s3Client := 1 }, activeView := "bucket" } "a" "" =
      some (.ok [], [Effect.listObjects 1 "a" "" 100]) := by
  refine ⟨fun T S now a b => ⟨_, rfl, rfl, ?_, ?_, ?_⟩, by decide, rfl⟩
  · exact (updateActiveView_frame T a _).2.2.2.2.2.2
  · rw [(updateActiveView_frame T a _).2.2.2.2.2.2]
    intro e he
    cases he
  · exact (updateActiveView_frame T a _).1

/-! ## The profile source -/

/-- C8. When the home directory resolves, whatever the two files hold or
whether they can be read at all, `getAWSProfiles` succeeds, and its result
contains `default`, has no name twice, and is strictly increasing. -/
theorem getAWSProfiles_default_nodup_sorted (h : Host) (home : String)
    (hHome : h.UserHomeDir = .ok home) (hRange : h.RangeIsPerm) :
    ∃ result, getAWSProfiles h = .ok result ∧ "default" ∈ result ∧ result.Nodup ∧
      (∀ x, result.count x ≤ 1) ∧ result.Sorted (fun a b => a < b) := by
  have hperm : (sort.Strings (h.rangeOrder (collectProfiles h home))).Perm
      (collectProfiles h home) :=
    (sort_Strings_perm _).trans (hRange _)
  have hnodup : (sort.Strings (h.rangeOrder (collectProfiles h home))).Nodup :=
    hperm.nodup_iff.2 (collectProfiles_nodup h home)
  refine ⟨sort.Strings (h.rangeOrder (collectProfiles h home)), ?_, ?_, hnodup, ?_, ?_⟩
  · simp [getAWSProfiles, hHome]
  · exact hperm.mem_iff.2 (collectProfiles_default h home)
  · intro x
    exact List.nodup_iff_count_le_one.1 hnodup x
  · exact (sort_Strings_sorted _).lt_of_le hnodup

/-- Witness of C8: a credentials file and a config file that share the names
`dev` and `default`. -/
theorem getAWSProfiles_default_nodup_sorted_witness :
    (Host.ofFiles (some "[dev]\nkey = 1\n [default] \n[b]")
      (some "[profile dev]\n[profile a]\n[sso-session x]\n[default]")).RangeIsPerm ∧
    ∃ result, getAWSProfiles (Host.ofFiles (some "[dev]\nkey = 1\n [default] \n[b]")
        (some "[profile dev]\n[profile a]\n[sso-session x]\n[default]")) = .ok result ∧
      "default" ∈ result ∧ result.Nodup ∧
      (∀ x, result.count x ≤ 1) ∧ result.Sorted (fun a b => a < b) :=
  ⟨fun m => List.reverse_perm m,
   getAWSProfiles_default_nodup_sorted _ "/home/u" rfl (fun m => List.reverse_perm m)⟩

/-- C9. When the home directory resolves and neither file can be read,
`getAWSProfiles` returns no error and exactly `["default"]`; and a file that
cannot be read counts as an empty one: replacing it by an empty file, in one
place or in both, gives the same result. -/
theorem getAWSProfiles_absent_files (h : Host) (home : String)
    (hHome : h.UserHomeDir = .ok home) (hRange : h.RangeIsPerm) :
    (∀ e₁ e₂, h.ReadFile (h.Join home ".aws" "credentials") = .error e₁ →
      h.ReadFile (h.Join home ".aws" "config") = .error e₂ →
      getAWSProfiles h = .ok ["default"]) ∧
    (∀ h' : Host, h'.UserHomeDir = h.UserHomeDir → h'.Join = h.Join →
      h'.rangeOrder = h.rangeOrder →
      (∀ p, h'.ReadFile p = h.ReadFile p ∨
        ((∃ e, h.ReadFile p = .error e) ∧ h'.ReadFile p = .ok "")) →
      getAWSProfiles h' = getAWSProfiles h) := by
  constructor
  · intro e₁ e₂ h1 h2
    have hc : collectProfiles h home = ["default"] := by
      simp [collectProfiles, h1, h2, StringSet.set]
    have hr : h.rangeOrder ["default"] = ["default"] := List.perm_singleton.1 (hRange _)
    simp only [getAWSProfiles, hHome, hc, hr]
    rfl
  · intro h' hH hJ hR hRead
    simp only [getAWSProfiles, hH, hHome, hR,
      collectProfiles_absent_as_empty h h' home hJ hRead]

/-- Witness of C9: a host with neither file. -/
theorem getAWSProfiles_absent_files_witness :
    (Host.ofFiles none none).RangeIsPerm ∧
    (∀ e₁ e₂, (Host.ofFiles none none).ReadFile
        ((Host.ofFiles none none).Join "/home/u" ".aws" "credentials") = .error e₁ →
      (Host.ofFiles none none).ReadFile
        ((Host.ofFiles none none).Join "/home/u" ".aws" "config") = .error e₂ →
      getAWSProfiles (Host.ofFiles none none) = .ok ["default"]) ∧
    (∀ h' : Host, h'.UserHomeDir = (Host.ofFiles none none).UserHomeDir →
      h'.Join = (Host.ofFiles none none).Join →
      h'.rangeOrder = (Host.ofFiles none none).rangeOrder →
      (∀ p, h'.ReadFile p = (Host.ofFiles none none).ReadFile p ∨
        ((∃ e, (Host.ofFiles none none).ReadFile p = .error e) ∧ h'.ReadFile p = .ok "")) →
      getAWSProfiles h' = getAWSProfiles (Host.ofFiles none none)) :=
  ⟨fun m => List.reverse_perm m,
   getAWSProfiles_absent_files (Host.ofFiles none none) "/home/u" rfl
    (fun m => List.reverse_perm m)⟩

/-! ## Object metadata -/

/-- C10. With a client, `App.GetObjectInfo` returns an error exactly when the
head call fails or its response has no `ContentLength` or no `LastModified`,
in the last two cases the error `invalid object metadata`; otherwise it
returns the item with the requested key, the size, modification time and
storage class of the response, and `IsDirectory` false. -/
theorem GetObjectInfo_result (S : Sdk) (a : App) (c : awslocal.Client)
    (hc : a.client = some c) (bucket key : String) :
    ∃ r eff, a.GetObjectInfo S bucket key = some (r, eff) ∧
      ((∃ e, r = .error e) ↔
        ((∃ e, (c.HeadObject S bucket key).1 = .error e) ∨
          ∃ head, (c.HeadObject S bucket key).1 = .ok head ∧
            (head.ContentLength = none ∨ head.LastModified = none))) ∧
      (∀ e, (c.HeadObject S bucket key).1 = .error e →
        r = .error ("failed to get object info: " ++ e)) ∧
      (∀ head, (c.HeadObject S bucket key).1 = .ok head →
        (head.ContentLength = none ∨ head.LastModified = none) →
        r = .error "invalid object metadata") ∧
      (∀ head size lastModified, (c.HeadObject S bucket key).1 = .ok head →
        head.ContentLength = some size → head.LastModified = some lastModified →
        r = .ok { Key := key, Size := size, LastModified := lastModified,
                  StorageClass := head.StorageClass, IsDirectory := false }) := by
  unfold App.GetObjectInfo
  rw [hc]
  simp only [awslocal.Client.HeadObject]
  cases hh : S.HeadObject c.s3Client bucket key with
  | error e => exact ⟨_, _, rfl, by simp, by simp, by simp, by simp⟩
  | ok head =>
    obtain ⟨cl, lm, sc⟩ := head
    cases cl with
    | none =>
      refine ⟨_, _, rfl, by simp, by simp, by simp, ?_⟩
      rintro head size lastModified ⟨⟩ h1 _
      cases h1
    | some size =>
      cases lm with
      | none =>
        refine ⟨_, _, rfl, by simp, by simp, by simp, ?_⟩
        rintro head size lastModified ⟨⟩ _ h2
        cases h2
      | some t =>
        refine ⟨_, _, rfl, by simp, by simp, by simp, ?_⟩
        rintro head size lastModified ⟨⟩ h1 h2
        cases h1
        cases h2
        rfl

/-- Witness of C10: the example app with a client. -/
theorem GetObjectInfo_result_witness :
    ∃ r eff, App.GetObjectInfo exampleSdk { exampleApp with client := some { s3Client := 1 } }
        "a" "k" = some (r, eff) ∧
      ((∃ e, r = .error e) ↔
        ((∃ e, (awslocal.Client.HeadObject exampleSdk { s3Client := 1 } "a" "k").1 = .error e) ∨
          ∃ head, (awslocal.Client.HeadObject exampleSdk { s3Client := 1 } "a" "k").1 = .ok head ∧
            (head.ContentLength = none ∨ head.LastModified = none))) ∧
      (∀ e, (awslocal.Client.HeadObject exampleSdk { s3Client := 1 } "a" "k").1 = .error e →
        r = .error ("failed to get object info: " ++ e)) ∧
      (∀ head, (awslocal.Client.HeadObject exampleSdk { s3Client := 1 } "a" "k").1 = .ok head →
        (head.ContentLength = none ∨ head.LastModified = none) →
        r = .error "invalid object metadata") ∧
      (∀ head size lastModified,
        (awslocal.Client.HeadObject exampleSdk { s3Client := 1 } "a" "k").1 = .ok head →
        head.ContentLength = some size → head.LastModified = some lastModified →
        r = .ok { Key := "k", Size := size, LastModified := lastModified,
                  StorageClass := head.StorageClass, IsDirectory := false }) :=
  GetObjectInfo_result exampleSdk { exampleApp with client := some { s3Client := 1 } }
    { s3Client := 1 } rfl "a" "k"

/-! ## The orchestrator: the back key outside the object view -/

/-- C11, counterexample. In the example app as `New` makes it (profile view,
no filter) `App.Update` on `esc` returns the command `tea.Quit`, which the
list of profiles gives for it, so it is not the case that nothing is
returned; and with the filter `dev` applied, `esc` clears the filter, so the
filter of the active view is not what it was. -/
theorem back_outside_object_not_noop :
    (exampleApp.keyMap = DefaultKeyMap ∧ exampleApp.activeView = "profile" ∧
      App.Update exampleTui exampleSdk 0 exampleApp (.KeyMsg "esc") =
        some { app := exampleApp, cmd := some .Quit, effects := [] } ∧
      ¬ ∃ r, App.Update exampleTui exampleSdk 0 exampleApp (.KeyMsg "esc") = some r ∧
        r.app.activeView = exampleApp.activeView ∧ r.app.help = exampleApp.help ∧
        r.app.client = exampleApp.client ∧ r.app.config = exampleApp.config ∧
        r.app.profileView.list.items = exampleApp.profileView.list.items ∧
        r.app.profileView.list.cursor = exampleApp.profileView.list.cursor ∧
        r.app.profileView.list.filterState = exampleApp.profileView.list.filterState ∧
        r.app.profileView.list.filterValue = exampleApp.profileView.list.filterValue ∧
        r.cmd = none) ∧
    (exampleAppFiltered.keyMap = DefaultKeyMap ∧ exampleAppFiltered.activeView = "profile" ∧
      ¬ ∃ r, App.Update exampleTui exampleSdk 0 exampleAppFiltered (.KeyMsg "esc") = some r ∧
        r.app.profileView.list.filterState = exampleAppFiltered.profileView.list.filterState ∧
        r.app.profileView.list.filterValue = exampleAppFiltered.profileView.list.filterValue) := by
  have h1 : App.Update exampleTui exampleSdk 0 exampleApp (.KeyMsg "esc") =
      some { app := exampleApp, cmd := some .Quit, effects := [] } := by decide
  have h2 : (App.Update exampleTui exampleSdk 0 exampleAppFiltered (.KeyMsg "esc")).map
      (fun r => r.app.profileView.list.filterState) = some .Unfiltered := by decide
  refine ⟨⟨rfl, rfl, h1, ?_⟩, rfl, rfl, ?_⟩
  · rintro ⟨r, hr, -, -, -, -, -, -, -, -, hcmd⟩
    rw [h1] at hr
    cases hr
    cases hcmd
  · rintro ⟨r, hr, hstate, -⟩
    rw [hr] at h2
    simp only [Option.map_some', Option.some.injEq] at h2
    rw [h2] at hstate
    cases hstate

/-- C11, as amended. In the profile or the bucket view `App.Update` on `esc`
changes nothing of its own: active view, help flag, client, config, bindings,
status bar and the views that are not active stay as they were and nothing is
sent or printed.  The key goes to the active view, whose list component
decides the rest: the active view's list afterwards and the command returned
are those of `list.Update` on `esc`; so the call is a no-op exactly where the
list component leaves its model alone and returns no command. -/
theorem back_outside_object_goes_to_active_view (T : Tui) (S : Sdk) (now : Time) (a : App)
    (hk : a.keyMap = DefaultKeyMap)
    (hv : a.activeView = "profile" ∨ a.activeView = "bucket") :
    ∃ r, a.Update T S now (.KeyMsg "esc") = some r ∧
      r.app.activeView = a.activeView ∧ r.app.help = a.help ∧
      r.app.client = a.client ∧ r.app.config = a.config ∧ r.app.keyMap = a.keyMap ∧
      r.app.statusBar = a.statusBar ∧ r.app.objectView = a.objectView ∧ r.effects = [] ∧
      (a.activeView = "profile" →
        r.app.bucketView = a.bucketView ∧
        r.app.profileView =
          { a.profileView with list := (T.listUpdate a.profileView.list (.KeyMsg "esc")).1 } ∧
        r.cmd = (T.listUpdate a.profileView.list (.KeyMsg "esc")).2 ∧
        (T.listUpdate a.profileView.list (.KeyMsg "esc") = (a.profileView.list, none) →
          r.app = a ∧ r.cmd = none)) ∧
      (a.activeView = "bucket" →
        r.app.profileView = a.profileView ∧
        r.app.bucketView =
          { a.bucketView with list := (T.listUpdate a.bucketView.list (.KeyMsg "esc")).1 } ∧
        r.cmd = (T.listUpdate a.bucketView.list (.KeyMsg "esc")).2 ∧
        (T.listUpdate a.bucketView.list (.KeyMsg "esc") = (a.bucketView.list, none) →
          r.app = a ∧ r.cmd = none)) := by
  rw [Update_esc T S now a hk]
  rcases hv with hv | hv
  · refine ⟨a.updateActiveView T (.KeyMsg "esc"), by simp [hv], ?_⟩
    have hp : a.updateActiveView T (.KeyMsg "esc") =
        { app := { a with profileView :=
                    { a.profileView with
                      list := (T.listUpdate a.profileView.list (.KeyMsg "esc")).1 } },
          cmd := (T.listUpdate a.profileView.list (.KeyMsg "esc")).2, effects := [] } := by
      simp [App.updateActiveView, hv, views.ProfileView.Update]
    rw [hp]
    refine ⟨rfl, rfl, rfl, rfl, rfl, rfl, rfl, rfl, fun _ => ⟨rfl, rfl, rfl, fun hl => ?_⟩,
      fun hb => ?_⟩
    · rw [hl]
      exact ⟨rfl, rfl⟩
    · rw [hv] at hb
      exact absurd hb (by decide)
  · refine ⟨a.updateActiveView T (.KeyMsg "esc"), by simp [hv], ?_⟩
    have hp : a.updateActiveView T (.KeyMsg "esc") =
        { app := { a with bucketView :=
                    { a.bucketView with
                      list := (T.listUpdate a.bucketView.list (.KeyMsg "esc")).1 } },
          cmd := (T.listUpdate a.bucketView.list (.KeyMsg "esc")).2, effects := [] } := by
      simp [App.updateActiveView, hv, views.BucketView.Update]
    rw [hp]
    refine ⟨rfl, rfl, rfl, rfl, rfl, rfl, rfl, rfl, fun hb => ?_,
      fun _ => ⟨rfl, rfl, rfl, fun hl => ?_⟩⟩
    · rw [hv] at hb
      exact absurd hb (by decide)
    · rw [hl]
      exact ⟨rfl, rfl⟩

/-- Witness of C11 as amended: `esc` in the profile view of the example app. -/
theorem back_outside_object_goes_to_active_view_witness :
    ∃ r, App.Update exampleTui exampleSdk 0 exampleApp (.KeyMsg "esc") = some r ∧
      r.app.activeView = exampleApp.activeView ∧ r.app.help = exampleApp.help ∧
      r.app.client = exampleApp.client ∧ r.app.config = exampleApp.config ∧
      r.app.keyMap = exampleApp.keyMap ∧
      r.app.statusBar = exampleApp.statusBar ∧ r.app.objectView = exampleApp.objectView ∧
      r.effects = [] ∧
      (exampleApp.activeView = "profile" →
        r.app.bucketView = exampleApp.bucketView ∧
        r.app.profileView =
          { exampleApp.profileView with
            list := (exampleTui.listUpdate exampleApp.profileView.list (.KeyMsg "esc")).1 } ∧
        r.cmd = (exampleTui.listUpdate exampleApp.profileView.list (.KeyMsg "esc")).2 ∧
        (exampleTui.listUpdate exampleApp.profileView.list (.KeyMsg "esc") =
            (exampleApp.profileView.list, none) →
          r.app = exampleApp ∧ r.cmd = none)) ∧
      (exampleApp.activeView = "bucket" →
        r.app.profileView = exampleApp.profileView ∧
        r.app.bucketView =
          { exampleApp.bucketView with
            list := (exampleTui.listUpdate exampleApp.bucketView.list (.KeyMsg "esc")).1 } ∧
        r.cmd = (exampleTui.listUpdate exampleApp.bucketView.list (.KeyMsg "esc")).2 ∧
        (exampleTui.listUpdate exampleApp.bucketView.list (.KeyMsg "esc") =
            (exampleApp.bucketView.list, none) →
          r.app = exampleApp ∧ r.cmd = none)) :=
  back_outside_object_goes_to_active_view exampleTui exampleSdk 0 exampleApp rfl (Or.inl rfl)

/-! ## The orchestrator: listing the buckets fails -/

/-- C12. When the client for the chosen profile is made but its list-buckets
call fails with `e`, `App.Update` still returns a model: the command is `nil`
(so not `tea.Quit`), the status message is `Error loading buckets: ` followed
by `e`, the items of the bucket view are as they were, and the active view is
bucket, as it is after a listing that succeeds. -/
theorem profile_chosen_list_failure (T : Tui) (S : Sdk) (now : Time) (a : App)
    (profile e : String) (c : awslocal.Client) (eff eff2 : List Effect)
    (hclient : awslocal.NewClient S profile "us-east-1" = (.ok c, eff))
    (hlist : c.ListBuckets S = (.error e, eff2)) :
    ∃ r, a.Update T S now (.ProfileSelectedMsg profile) = some r ∧
      r.cmd = none ∧ r.cmd ≠ some .Quit ∧
      r.app.statusBar.message = "Error loading buckets: " ++ e ∧
      r.app.bucketView.list.items = a.bucketView.list.items ∧
      r.app.bucketView = a.bucketView ∧
      r.app.activeView = "bucket" ∧
      (∀ (S' : Sdk) (c' : awslocal.Client) (eff' eff2' : List Effect)
          (bs : List awslocal.BucketItem),
        awslocal.NewClient S' profile "us-east-1" = (.ok c', eff') →
        c'.ListBuckets S' = (.ok bs, eff2') →
        ∃ r', a.Update T S' now (.ProfileSelectedMsg profile) = some r' ∧
          r'.app.activeView = r.app.activeView) := by
  refine ⟨_, by simp [App.Update, App.UpdateConfig, hclient, App.ListBuckets, hlist]; rfl, ?_⟩
  refine ⟨rfl, by simp, rfl, rfl, rfl, rfl, ?_⟩
  intro S' c' eff' eff2' bs hc' hl'
  simp [App.Update, App.UpdateConfig, hc', App.ListBuckets, hl']

/-- Witness of C12: the profile `default` in the SDK that denies the
listing. -/
theorem profile_chosen_list_failure_witness :
    ∃ r, exampleApp.Update exampleTui exampleSdkDenied 9 (.ProfileSelectedMsg "default") =
        some r ∧
      r.cmd = none ∧ r.cmd ≠ some .Quit ∧
      r.app.statusBar.message = "Error loading buckets: " ++ "AccessDenied" ∧
      r.app.bucketView.list.items = exampleApp.bucketView.list.items ∧
      r.app.bucketView = exampleApp.bucketView ∧
      r.app.activeView = "bucket" ∧
      (∀ (S' : Sdk) (c' : awslocal.Client) (eff' eff2' : List Effect)
          (bs : List awslocal.BucketItem),
        awslocal.NewClient S' "default" "us-east-1" = (.ok c', eff') →
        c'.ListBuckets S' = (.ok bs, eff2') →
        ∃ r', exampleApp.Update exampleTui S' 9 (.ProfileSelectedMsg "default") = some r' ∧
          r'.app.activeView = r.app.activeView) :=
  profile_chosen_list_failure exampleTui exampleSdkDenied 9 exampleApp "default" "AccessDenied"
    { s3Client := 1 }
    [Effect.print "Creating AWS client for profile: default, region: us-east-1\n",
      Effect.loadConfig "default" "us-east-1", Effect.retrieveCredentials 1,
      Effect.print "Successfully loaded credentials for profile: default\n"]
    [Effect.listBuckets 1] rfl rfl

/-! ## The profile source: which names are collected -/

/-- C13. When the home directory resolves, and the names `X` of the lines
`[X]` that the rules below take as they are neither begin nor end with a
bracket, the result of `getAWSProfiles` holds exactly `default` and: for the
credentials file, the `X` of every trimmed line `[X]`; for the config file,
the `X` of every trimmed line `[profile X]`, and the `X` of every other
trimmed line `[X]` that does not begin with `[sso-session`.  Line by line: a
config line `[profile X]` assigns the key `X`; a config line that begins with
`[sso-session` assigns nothing; a line that is not of the form `[X]` assigns
nothing in either file. -/
theorem getAWSProfiles_names (h : Host) (home : String)
    (hHome : h.UserHomeDir = .ok home) (hRange : h.RangeIsPerm)
    (hcred : ∀ line ∈ h.fileLines (h.Join home ".aws" "credentials"), ∀ X,
      strings.TrimSpace line = "[" ++ X ++ "]" → noBracketAtEnds X = true)
    (hconf : ∀ line ∈ h.fileLines (h.Join home ".aws" "config"), ∀ X,
      strings.TrimSpace line = "[" ++ X ++ "]" →
      (¬ ∃ Y : String, strings.TrimSpace line = "[profile " ++ Y ++ "]") →
      strings.HasPrefix (strings.TrimSpace line) "[sso-session" = false →
      noBracketAtEnds X = true) :
    ∃ result, getAWSProfiles h = .ok result ∧
      (∀ x, x ∈ result ↔
        x = "default" ∨
        (∃ line ∈ h.fileLines (h.Join home ".aws" "credentials"),
          strings.TrimSpace line = "[" ++ x ++ "]") ∨
        (∃ line ∈ h.fileLines (h.Join home ".aws" "config"),
          strings.TrimSpace line = "[profile " ++ x ++ "]") ∨
        (∃ line ∈ h.fileLines (h.Join home ".aws" "config"),
          strings.TrimSpace line = "[" ++ x ++ "]" ∧
          (¬ ∃ Y : String, strings.TrimSpace line = "[profile " ++ Y ++ "]") ∧
          strings.HasPrefix (strings.TrimSpace line) "[sso-session" = false)) ∧
      (∀ (m : StringSet) (line X : String),
        strings.TrimSpace line = "[profile " ++ X ++ "]" → configLine m line = m.set X) ∧
      (∀ (m : StringSet) (line : String),
        strings.HasPrefix (strings.TrimSpace line) "[sso-session" = true →
        configLine m line = m) ∧
      (∀ (m : StringSet) (line : String),
        (strings.HasPrefix (strings.TrimSpace line) "[" &&
          strings.HasSuffix (strings.TrimSpace line) "]") = false →
        credentialsLine m line = m ∧ configLine m line = m) := by
  have hperm : (sort.Strings (h.rangeOrder (collectProfiles h home))).Perm
      (collectProfiles h home) :=
    (sort_Strings_perm _).trans (hRange _)
  refine ⟨sort.Strings (h.rangeOrder (collectProfiles h home)), ?_, ?_, ?_, ?_, ?_⟩
  · simp [getAWSProfiles, hHome]
  · intro x
    rw [hperm.mem_iff, mem_collectProfiles_iff]
    by_cases hd : x = "default"
    · simp [hd]
    · have hc : (∃ line ∈ h.fileLines (h.Join home ".aws" "credentials"),
          credentialsAdds line = some x) ↔
          ∃ line ∈ h.fileLines (h.Join home ".aws" "credentials"),
            strings.TrimSpace line = "[" ++ x ++ "]" := by
        constructor
        · rintro ⟨line, hl, ha⟩
          exact ⟨line, hl, ((credentialsAdds_iff line x (hcred line hl)).1 ha).1⟩
        · rintro ⟨line, hl, ht⟩
          exact ⟨line, hl, (credentialsAdds_iff line x (hcred line hl)).2 ⟨ht, hd⟩⟩
      have hg : (∃ line ∈ h.fileLines (h.Join home ".aws" "config"),
          configAdds line = some x) ↔
          ((∃ line ∈ h.fileLines (h.Join home ".aws" "config"),
            strings.TrimSpace line = "[profile " ++ x ++ "]") ∨
          (∃ line ∈ h.fileLines (h.Join home ".aws" "config"),
            strings.TrimSpace line = "[" ++ x ++ "]" ∧
            (¬ ∃ Y : String, strings.TrimSpace line = "[profile " ++ Y ++ "]") ∧
            strings.HasPrefix (strings.TrimSpace line) "[sso-session" = false)) := by
        constructor
        · rintro ⟨line, hl, ha⟩
          rcases (configAdds_iff line x (hconf line hl)).1 ha with h1 | ⟨h1, h2, h3, _⟩
          · exact Or.inl ⟨line, hl, h1⟩
          · exact Or.inr ⟨line, hl, h1, h2, h3⟩
        · rintro (⟨line, hl, h1⟩ | ⟨line, hl, h1, h2, h3⟩)
          · exact ⟨line, hl, (configAdds_iff line x (hconf line hl)).2 (Or.inl h1)⟩
          · exact ⟨line, hl,
              (configAdds_iff line x (hconf line hl)).2 (Or.inr ⟨h1, h2, h3, hd⟩)⟩
      rw [hc, hg]
  · intro m line X ht
    have hp := (profile_header_iff _).2 ⟨X, ht⟩
    unfold configLine
    simp only []
    rw [if_pos hp, ht, trim_profile_header]
  · intro m line hs
    have hp := sso_not_profile hs
    unfold configLine
    simp only []
    rw [hp, hs]
    simp
  · intro m line hb
    constructor
    · unfold credentialsLine
      simp only []
      rw [hb]
      rfl
    · have hp : (strings.HasPrefix (strings.TrimSpace line) "[profile " &&
          strings.HasSuffix (strings.TrimSpace line) "]") = false := by
        cases hpp : (strings.HasPrefix (strings.TrimSpace line) "[profile " &&
          strings.HasSuffix (strings.TrimSpace line) "]") with
        | false => rfl
        | true =>
          rw [profile_header_bracketed hpp] at hb
          cases hb
      unfold configLine
      simp only []
      rw [hp, hb]
      rfl

/-- Witness of C13: the example host, none of whose section names has a
bracket at its ends. -/
theorem getAWSProfiles_names_witness :
    exampleHost.RangeIsPerm ∧
    ∃ result, getAWSProfiles exampleHost = .ok result ∧
      (∀ x, x ∈ result ↔
        x = "default" ∨
        (∃ line ∈ exampleHost.fileLines (exampleHost.Join "/home/u" ".aws" "credentials"),
          strings.TrimSpace line = "[" ++ x ++ "]") ∨
        (∃ line ∈ exampleHost.fileLines (exampleHost.Join "/home/u" ".aws" "config"),
          strings.TrimSpace line = "[profile " ++ x ++ "]") ∨
        (∃ line ∈ exampleHost.fileLines (exampleHost.Join "/home/u" ".aws" "config"),
          strings.TrimSpace line = "[" ++ x ++ "]" ∧
          (¬ ∃ Y : String, strings.TrimSpace line = "[profile " ++ Y ++ "]") ∧
          strings.HasPrefix (strings.TrimSpace line) "[sso-session" = false)) ∧
      (∀ (m : StringSet) (line X : String),
        strings.TrimSpace line = "[profile " ++ X ++ "]" → configLine m line = m.set X) ∧
      (∀ (m : StringSet) (line : String),
        strings.HasPrefix (strings.TrimSpace line) "[sso-session" = true →
        configLine m line = m) ∧
      (∀ (m : StringSet) (line : String),
        (strings.HasPrefix (strings.TrimSpace line) "[" &&
          strings.HasSuffix (strings.TrimSpace line) "]") = false →
        credentialsLine m line = m ∧ configLine m line = m) :=
  ⟨fun m => List.reverse_perm m,
   getAWSProfiles_names exampleHost "/home/u" rfl (fun m => List.reverse_perm m)
    (fun line hl X ht => by
      have hX := bracketed_middle ht
      subst hX
      have hlines : exampleHost.fileLines (exampleHost.Join "/home/u" ".aws" "credentials") =
          ["[dev]", "key = 1", " [default] ", "[b]"] := by decide
      rw [hlines] at hl
      simp only [List.mem_cons, List.mem_singleton, List.not_mem_nil, or_false] at hl
      rcases hl with rfl | rfl | rfl | rfl <;> decide)
    (fun line hl X ht _ _ => by
      have hX := bracketed_middle ht
      subst hX
      have hlines : exampleHost.fileLines (exampleHost.Join "/home/u" ".aws" "config") =
          ["[profile dev]", "[profile a]", "[sso-session x]", "[default]", "region = r",
            "[c]"] := by decide
      rw [hlines] at hl
      simp only [List.mem_cons, List.mem_singleton, List.not_mem_nil, or_false] at hl
      rcases hl with rfl | rfl | rfl | rfl | rfl | rfl <;> decide)⟩

end S9s
